import Mathlib

/-!
Shallow embedding of the validation / normalization / referential-integrity
pipeline of the ERP backend (Express controllers for employees, projects,
tasks and materials), together with proofs about the behaviour its
specification claims.

JavaScript strings are modelled as lists of natural character codes
(`List Nat`), JavaScript runtime values reaching the pipeline as the
inductive `JsVal`, and dates as integer timeline points.  Each Lean
definition mirrors one function of the source; the file ends with one
theorem per specification claim.
-/

/-- Character code of a JS whitespace character (space, tab, LF, CR, VT, FF). -/
def isWs (c : Nat) : Bool :=
  c = 32 || c = 9 || c = 10 || c = 13 || c = 11 || c = 12

/-- Character code of a decimal digit (matches the JS regex class backslash-d). -/
def isDigitCh (c : Nat) : Bool :=
  48 ≤ c && c ≤ 57

/-- Code points of a Lean string literal, used to write JS string constants. -/
def strCodes (s : String) : List Nat :=
  s.data.map Char.toNat

/-- Model of the JS String.prototype.trim: drop whitespace at both ends. -/
def trimWs (l : List Nat) : List Nat :=
  ((l.dropWhile isWs).reverse.dropWhile isWs).reverse

/-- Scanner behind the model of replace(/s+/g, single space): the flag
records whether the previous character belonged to a whitespace run, whose
first character alone is emitted as a space (code 32). -/
def collapseOn : Bool → List Nat → List Nat
  | _, [] => []
  | inRun, c :: rest =>
      if isWs c then
        if inRun then collapseOn true rest
        else 32 :: collapseOn true rest
      else c :: collapseOn false rest

/-- Model of replace(/s+/g, single space) in the JS sources: every maximal
whitespace run becomes one space (code 32). -/
def collapseWs (l : List Nat) : List Nat :=
  collapseOn false l

/-- Model of JS toUpperCase restricted to ASCII letters (the code points the
repository ever feeds it: status words, entity codes). -/
def upCh (c : Nat) : Nat :=
  if 97 ≤ c ∧ c ≤ 122 then c - 32 else c

/-- Uppercasing of a modelled JS string. -/
def upperStr (l : List Nat) : List Nat :=
  l.map upCh

/-- Numeric value of a list of decimal digit codes, most significant first. -/
def valOfDigits (l : List Nat) : Nat :=
  l.foldl (fun a c => a * 10 + (c - 48)) 0

/-- Leading run of decimal digits of a modelled string. -/
def leadDigits (l : List Nat) : List Nat :=
  l.takeWhile isDigitCh

/-- Decimal digit codes of a natural number, as rendered by JS template
strings. -/
def natDigits (n : Nat) : List Nat :=
  (Nat.toDigits 10 n).map Char.toNat

/-- Decimal rendering of an integer. -/
def renderInt (z : Int) : List Nat :=
  if z < 0 then 45 :: natDigits z.natAbs else natDigits z.natAbs

/-- Rendering of a rational in a JS template string.  The pipeline only ever
renders integer ids here (they come out of parseInt), so the fractional case
is a coarse stand-in. -/
def renderQ (q : ℚ) : List Nat :=
  if q.den = 1 then renderInt q.num else renderInt q.num ++ [46] ++ natDigits q.den

/-- Model of JS parseInt(v, 10) on a string: skip leading whitespace, read an
optional sign and then a leading digit run; no digits means NaN (`none`). -/
def parseIntStr (s : List Nat) : Option Int :=
  let t := s.dropWhile isWs
  match t with
  | 45 :: rest =>
      if leadDigits rest = [] then none else some (-(valOfDigits (leadDigits rest) : Int))
  | 43 :: rest =>
      if leadDigits rest = [] then none else some (valOfDigits (leadDigits rest))
  | _ =>
      if leadDigits t = [] then none else some (valOfDigits (leadDigits t))

/-- Unsigned decimal-literal parse used by the model of Number(): digit run
with an optional fraction, consuming the whole input. -/
def parseNumAll (l : List Nat) : Option ℚ :=
  let ip := leadDigits l
  if ip = [] then none else
  match l.drop ip.length with
  | [] => some (valOfDigits ip)
  | 46 :: fr =>
      if fr ≠ [] ∧ leadDigits fr = fr then
        some ((valOfDigits ip : ℚ) + (valOfDigits fr : ℚ) / (10 ^ fr.length))
      else none
  | _ => none

/-- Model of JS Number(string) (the coercion behind isNaN): trimmed empty
string is 0, otherwise the whole string must be a signed decimal literal;
`none` is NaN.  Exotic literal forms (hex, exponents) are outside the model. -/
def strToNumber (s : List Nat) : Option ℚ :=
  let t := trimWs s
  if t = [] then some 0 else
  match t with
  | 45 :: rest => (parseNumAll rest).map (fun q => -q)
  | 43 :: rest => parseNumAll rest
  | _ => parseNumAll t

/-- Unsigned longest-numeric-prefix parse used by the model of parseFloat. -/
def parseFloatMag (l : List Nat) : Option ℚ :=
  let ip := leadDigits l
  if ip = [] then none else
  match l.drop ip.length with
  | 46 :: fr =>
      some ((valOfDigits ip : ℚ) + (valOfDigits (leadDigits fr) : ℚ) / (10 ^ (leadDigits fr).length))
  | _ => some (valOfDigits ip)

/-- Model of JS parseFloat on a string: longest numeric prefix after optional
whitespace and sign; `none` is NaN. -/
def parseFloatStr (s : List Nat) : Option ℚ :=
  let t := s.dropWhile isWs
  match t with
  | 45 :: rest => (parseFloatMag rest).map (fun q => -q)
  | 43 :: rest => parseFloatMag rest
  | _ => parseFloatMag t

/-- Truncation toward zero, the behaviour of parseInt on an already numeric
JS value (via its decimal rendering). -/
def truncQ (q : ℚ) : Int :=
  if 0 ≤ q then ⌊q⌋ else ⌈q⌉

/-- Model of the JS Date parser restricted to ISO calendar dates
(YYYY-MM-DD), which is the only date shape the application exchanges.  A
valid date maps to a point on an abstract integer timeline that is monotone
in calendar order; anything else is an invalid date (`none`). -/
def dateParseISO (s : List Nat) : Option Int :=
  match s with
  | [y1, y2, y3, y4, 45, m1, m2, 45, d1, d2] =>
      if [y1, y2, y3, y4, m1, m2, d1, d2].all isDigitCh then
        let y := valOfDigits [y1, y2, y3, y4]
        let m := valOfDigits [m1, m2]
        let d := valOfDigits [d1, d2]
        if 1 ≤ m ∧ m ≤ 12 ∧ 1 ≤ d ∧ d ≤ 31 then
          some (((y * 12 + (m - 1)) * 31 + (d - 1) : Nat) : Int)
        else none
      else none
  | _ => none

/-- JavaScript runtime values that can reach the pipeline: absent fields,
null, NaN, finite numbers, strings, Date objects (invalid when `none`), and
plain objects (modelled as association lists of strings). -/
inductive JsVal where
  | undef
  | nul
  | nan
  | num (q : ℚ)
  | str (s : List Nat)
  | date (t : Option Int)
  | objMap (entries : List (List Nat × List Nat))
deriving DecidableEq, Repr

/-- JS truthiness: undefined, null, NaN, 0 and the empty string are falsy;
objects (Date included, even invalid ones) are truthy. -/
def JsVal.truthy : JsVal → Bool
  | .undef => false
  | .nul => false
  | .nan => false
  | .num q => q ≠ 0
  | .str s => !s.isEmpty
  | .date _ => true
  | .objMap _ => true

/-- JS ToNumber coercion; `none` is NaN.  This is what isNaN applies. -/
def JsVal.toNumber : JsVal → Option ℚ
  | .undef => none
  | .nul => some 0
  | .nan => none
  | .num q => some q
  | .str s => strToNumber s
  | .date t => t.map (fun z => (z : ℚ))
  | .objMap _ => none

/-- Model of the JS global isNaN applied to a value. -/
def JsVal.jsIsNaN (v : JsVal) : Bool :=
  v.toNumber.isNone

/-- Model of parseInt(v, 10) on an arbitrary value: the value is first
rendered to a string.  Renderings of dates, objects, null and undefined have
no leading digits, so they parse to NaN. -/
def JsVal.parseIntQ : JsVal → Option Int
  | .num q => some (truncQ q)
  | .str s => parseIntStr s
  | _ => none

/-- The parseInt step of a normalizer: a number on success, NaN otherwise. -/
def jsParseIntVal (v : JsVal) : JsVal :=
  match v.parseIntQ with
  | some z => .num (z : ℚ)
  | none => .nan

/-- The parseFloat step of a normalizer. -/
def jsParseFloatVal (v : JsVal) : JsVal :=
  match v with
  | .num q => .num q
  | .str s =>
      match parseFloatStr s with
      | some q => .num q
      | none => .nan
  | _ => .nan

/-- Model of new Date(v): Date objects keep their value, strings go through
the date parser, numbers are epoch offsets, null is the epoch; undefined and
objects give an invalid date. -/
def JsVal.newDate : JsVal → Option Int
  | .date t => t
  | .str s => dateParseISO s
  | .num q => some (truncQ q)
  | .nul => some 0
  | _ => none

/-- Rendering of a value inside a JS template string (only the integer
number case is exercised by the messages the claims talk about). -/
def JsVal.render : JsVal → List Nat
  | .undef => strCodes "undefined"
  | .nul => strCodes "null"
  | .nan => strCodes "NaN"
  | .num q => renderQ q
  | .str s => s
  | .date _ => strCodes "[Date]"
  | .objMap _ => strCodes "[object Object]"

/-- Truthiness of a field that the model types as string-or-absent. -/
def strTruthy : Option (List Nat) → Bool
  | none => false
  | some s => !s.isEmpty

/-- The guarded string-normalization idiom of the sources: a field is only
rewritten when truthy. -/
def normStrOpt (f : List Nat → List Nat) (v : Option (List Nat)) : Option (List Nat) :=
  match v with
  | some s => if s.isEmpty then v else some (f s)
  | none => none

/-- The guarded parseInt idiom of the sources for id-like fields. -/
def normNumField (v : JsVal) : JsVal :=
  if v.truthy then jsParseIntVal v else v

/-- Substring test on modelled strings (the message-containment relation of
the claims). -/
def containsSub (needle : List Nat) : List Nat → Bool
  | [] => needle.isEmpty
  | c :: t => needle.isPrefixOf (c :: t) || containsSub needle t

/-- Model of Array.prototype.join with separator comma-space, used by every
controller to collapse an error list into one response message. -/
def joinMsgs : List (List Nat) → List Nat
  | [] => []
  | [m] => m
  | m :: rest => m ++ strCodes ", " ++ joinMsgs rest

/-- The uniform response envelope a handler produces: HTTP status plus the
top-level JSON fields the claims inspect.  `success = none` means the body
carries no success key at all. -/
structure ApiResponse (α : Type) where
  status : Nat
  success : Option Bool
  message : Option (List Nat)
  data : Option α
deriving DecidableEq, Repr

/-- An isValid / errors pair, the shape returned by the referential and
uniqueness checkers of the controllers. -/
structure CheckResult where
  isValid : Bool
  errors : List (List Nat)
deriving DecidableEq, Repr

/-- A stored Company document (only the fields the embedded handlers read). -/
structure CompanyDoc where
  id : JsVal
  name : List Nat
deriving DecidableEq, Repr

/-- A stored User document (only the fields the embedded handlers read). -/
structure UserDoc where
  id : JsVal
deriving DecidableEq, Repr

/-- An employee field bag: both the raw request body and the stored document
shape of employeeController.  Absent fields are undef / none. -/
structure EmployeeData where
  id : JsVal
  companyId : JsVal
  userId : JsVal
  fullName : Option (List Nat)
  employeeCode : Option (List Nat)
  phone : Option (List Nat)
  jobTitle : Option (List Nat)
  photoUrl : Option (List Nat)
  status : Option (List Nat)
  createdAt : JsVal
deriving DecidableEq, Repr

/-- An employee body with every field absent, for building concrete inputs. -/
def emptyEmployee : EmployeeData :=
  { id := .undef, companyId := .undef, userId := .undef, fullName := none,
    employeeCode := none, phone := none, jobTitle := none, photoUrl := none,
    status := none, createdAt := .undef }

/-- The employee status enumeration of the controller. -/
def employeeStatuses : List (List Nat) :=
  [strCodes "ACTIVE", strCodes "INACTIVE", strCodes "SUSPENDED"]

/-- Embedding of validateEmployeeInput: the error strings are accumulated in
source push order. -/
def validateEmployeeInput (d : EmployeeData) : List (List Nat) :=
  (if !d.id.truthy then [strCodes "Employee ID is required"] else []) ++
  (if !d.companyId.truthy then [strCodes "Company ID is required"] else []) ++
  (if !strTruthy d.fullName then [strCodes "Full name is required"] else []) ++
  (if !strTruthy d.employeeCode then [strCodes "Employee code is required"] else []) ++
  (if d.id.truthy && d.id.jsIsNaN then [strCodes "Employee ID must be a number"] else []) ++
  (if d.companyId.truthy && d.companyId.jsIsNaN then [strCodes "Company ID must be a number"] else []) ++
  (if d.userId.truthy && d.userId.jsIsNaN then [strCodes "User ID must be a number"] else []) ++
  (match d.fullName with
   | some s =>
       (if !s.isEmpty && (trimWs s).length = 0 then [strCodes "Full name cannot be empty"] else []) ++
       (if !s.isEmpty && 100 < (trimWs s).length then [strCodes "Full name must be less than 100 characters"] else [])
   | none => []) ++
  (match d.employeeCode with
   | some s =>
       if !s.isEmpty && 20 < (trimWs s).length then [strCodes "Employee code must be less than 20 characters"] else []
   | none => []) ++
  (match d.status with
   | some s =>
       if !s.isEmpty && !employeeStatuses.contains s then
         [strCodes "Status must be one of: ACTIVE, INACTIVE, SUSPENDED"]
       else []
   | none => [])

/-- The createdAt step of normalizeEmployeeData: a truthy value is re-parsed
as a date, an invalid parse is replaced by the current time. -/
def normCreatedAtEmp (now : Int) (v : JsVal) : JsVal :=
  if v.truthy then
    match v.newDate with
    | some t => .date (some t)
    | none => .date (some now)
  else v

/-- Embedding of normalizeEmployeeData. -/
def normalizeEmployeeData (now : Int) (d : EmployeeData) : EmployeeData :=
  { d with
    id := normNumField d.id
    companyId := normNumField d.companyId
    userId := normNumField d.userId
    fullName := normStrOpt (fun s => collapseWs (trimWs s)) d.fullName
    employeeCode := normStrOpt trimWs d.employeeCode
    phone := normStrOpt (fun s => (trimWs s).filter isDigitCh) d.phone
    jobTitle := normStrOpt trimWs d.jobTitle
    photoUrl := normStrOpt trimWs d.photoUrl
    status := normStrOpt upperStr d.status
    createdAt := normCreatedAtEmp now d.createdAt }

/-- Embedding of the employee controller validateReferentialIntegrity:
read-only lookups of the company and, when supplied, the user. -/
def validateReferentialIntegrity (cs : List CompanyDoc) (us : List UserDoc)
    (companyId userId : JsVal) : CheckResult :=
  let companyExists := cs.any (fun c => c.id == companyId)
  let userExists := !userId.truthy || us.any (fun u => u.id == userId)
  let errs :=
    (if !companyExists then
       [strCodes "Company with ID " ++ companyId.render ++ strCodes " does not exist"]
     else []) ++
    (if userId.truthy && !userExists then
       [strCodes "User with ID " ++ userId.render ++ strCodes " does not exist"]
     else [])
  { isValid := errs.isEmpty, errors := errs }

/-- Embedding of checkEmployeeUniqueness.  The source builds the id query as
an object literal keyed on the employee id and then, when an exclusion id is
supplied (the update path), overwrites that key with a not-equal filter, so
the id scan degenerates to matching every other employee; the model keeps
that behaviour. -/
def checkEmployeeUniqueness (emps : List EmployeeData) (employeeId : JsVal)
    (employeeCode : Option (List Nat)) (excludeEmployeeId : Option JsVal) : CheckResult :=
  let idMatch : EmployeeData → Bool :=
    match excludeEmployeeId with
    | some ex => fun e => e.id != ex
    | none => fun e => e.id == employeeId
  let existingById := emps.any idMatch
  let existingByCode :=
    match employeeCode with
    | some c =>
        if c.isEmpty then false
        else emps.any (fun e =>
          e.employeeCode == some (trimWs c) &&
          (match excludeEmployeeId with
           | some ex => e.id != ex
           | none => true))
    | none => false
  let errs :=
    (if existingById then
       [strCodes "Employee with ID " ++ employeeId.render ++ strCodes " already exists"]
     else []) ++
    (if existingByCode then
       [strCodes "Employee with code " ++ [39] ++
         (match employeeCode with | some c => c | none => []) ++ [39] ++
         strCodes " already exists"]
     else [])
  { isValid := errs.isEmpty, errors := errs }

/-- Derived project metadata, the shape built by generateProjectMetadata. -/
structure ProjMeta where
  progress : ℚ
  health : List Nat
  timelineStatus : List Nat
  financialStatus : List Nat
  risks : List (List Nat)
deriving DecidableEq, Repr

/-- A project field bag: the raw request body, the normalized payload and
the document handed to the Project model all share this shape. -/
structure ProjectData where
  id : JsVal
  companyId : JsVal
  name : Option (List Nat)
  code : Option (List Nat)
  description : Option (List Nat)
  location : Option (List Nat)
  status : Option (List Nat)
  budget : JsVal
  startDate : JsVal
  endDate : JsVal
  createdBy : JsVal
  createdAt : JsVal
  updatedAt : JsVal
  metadata : Option ProjMeta
deriving DecidableEq, Repr

/-- A project body with every field absent. -/
def emptyProject : ProjectData :=
  { id := .undef, companyId := .undef, name := none, code := none,
    description := none, location := none, status := none, budget := .undef,
    startDate := .undef, endDate := .undef, createdBy := .undef,
    createdAt := .undef, updatedAt := .undef, metadata := none }

/-- The status enumeration used by validateProjectInput. -/
def projectStatuses : List (List Nat) :=
  [strCodes "PLANNING", strCodes "ACTIVE", strCodes "ON_HOLD",
   strCodes "COMPLETED", strCodes "CANCELLED"]

/-- The status enumeration declared by the Project Mongoose schema in
models Project.js; note it is disjoint from the validator enumeration. -/
def projectSchemaEnum : List (List Nat) :=
  [strCodes "Planned", strCodes "Ongoing", strCodes "Completed",
   strCodes "Warranty", strCodes "Cancelled"]

/-- The JS relational comparison of two Date objects: false whenever either
side is invalid (NaN), otherwise comparison of the timeline values. -/
def dateLeDate (e s : Option Int) : Bool :=
  match e, s with
  | some a, some b => a ≤ b
  | _, _ => false

/-- Model of the JS comparison (budget less than 0) on a raw value: the value
is coerced by ToNumber and NaN compares false. -/
def jsLtZero (v : JsVal) : Bool :=
  match v.toNumber with
  | some q => q < 0
  | none => false

/-- Embedding of validateProjectInput, in source push order. -/
def validateProjectInput (d : ProjectData) : List (List Nat) :=
  (if !strTruthy d.name then [strCodes "Project name is required"] else []) ++
  (if !d.companyId.truthy then [strCodes "Company ID is required"] else []) ++
  (if d.companyId.truthy && d.companyId.jsIsNaN then [strCodes "Company ID must be a number"] else []) ++
  (if d.budget.truthy && d.budget.jsIsNaN then [strCodes "Budget must be a number"] else []) ++
  (match d.name with
   | some s =>
       (if !s.isEmpty && (trimWs s).length = 0 then [strCodes "Project name cannot be empty"] else []) ++
       (if !s.isEmpty && 100 < (trimWs s).length then [strCodes "Project name must be less than 100 characters"] else [])
   | none => []) ++
  (match d.code with
   | some s =>
       if !s.isEmpty && 20 < (trimWs s).length then [strCodes "Project code must be less than 20 characters"] else []
   | none => []) ++
  (if d.startDate.truthy && (d.startDate.newDate).isNone then [strCodes "Start date must be a valid date"] else []) ++
  (if d.endDate.truthy && (d.endDate.newDate).isNone then [strCodes "End date must be a valid date"] else []) ++
  (if d.startDate.truthy && d.endDate.truthy && dateLeDate d.endDate.newDate d.startDate.newDate then
     [strCodes "End date must be after start date"]
   else []) ++
  (if d.budget.truthy && jsLtZero d.budget then [strCodes "Budget cannot be negative"] else []) ++
  (match d.status with
   | some s =>
       if !s.isEmpty && !projectStatuses.contains s then
         [strCodes "Status must be one of: PLANNING, ACTIVE, ON_HOLD, COMPLETED, CANCELLED"]
       else []
   | none => [])

/-- The guarded date step of normalizeProjectData: a truthy value is passed
through new Date and an invalid result becomes null. -/
def normDateProj (v : JsVal) : JsVal :=
  if v.truthy then
    match v.newDate with
    | some t => .date (some t)
    | none => .nul
  else v

/-- The combined effect of normalizeProjectData on the budget field: the
guarded parseFloat of line 79 followed by the zero default of line 100. -/
def projBudgetNorm (v : JsVal) : JsVal :=
  let budget1 := if v.truthy then jsParseFloatVal v else v
  if budget1.truthy then budget1 else .num 0

/-- The default-if-falsy idiom on a string field. -/
def orDefaultStr (v : Option (List Nat)) (dflt : List Nat) : Option (List Nat) :=
  if strTruthy v then v else some dflt

/-- The default-if-falsy idiom on a general value field. -/
def orDefaultVal (v dflt : JsVal) : JsVal :=
  if v.truthy then v else dflt

/-- Embedding of normalizeProjectData. -/
def normalizeProjectData (d : ProjectData) : ProjectData :=
  { d with
    companyId := normNumField d.companyId
    budget := projBudgetNorm d.budget
    name := normStrOpt (fun s => collapseWs (trimWs s)) d.name
    code := normStrOpt (fun s => upperStr (trimWs s)) d.code
    description := normStrOpt trimWs d.description
    location := normStrOpt trimWs d.location
    startDate := normDateProj d.startDate
    endDate := normDateProj d.endDate
    status := orDefaultStr d.status (strCodes "PLANNING") }

/-- Embedding of checkProjectCodeUniqueness: the scan is over the code field
as queried by the controller and excludes the given project id when one is
supplied. -/
def checkProjectCodeUniqueness (ps : List ProjectData) (code : List Nat)
    (excludeProjectId : Option JsVal) : Bool :=
  !(ps.any (fun p =>
      p.code == some (upperStr (trimWs code)) &&
      (match excludeProjectId with
       | some ex => p.id != ex
       | none => true)))

/-- Numeric sort key of a stored id or timestamp value. -/
def keyOf (v : JsVal) : ℚ :=
  match v with
  | .num q => q
  | .date (some t) => (t : ℚ)
  | _ => 0

/-- Model of findOne sorted by id descending: the query returns a stored
document carrying the maximal id, or nothing on an empty collection. -/
def maxIdHead (key : α → ℚ) : List α → Option α
  | [] => none
  | x :: rest =>
      match maxIdHead key rest with
      | none => some x
      | some y => if key y ≤ key x then some x else some y

/-- Embedding of generateNextProjectId: the id of the document the
id-descending findOne returns, plus one; 1 on an empty collection. -/
def nextProjectId (ps : List ProjectData) : ℚ :=
  match maxIdHead (fun p => keyOf p.id) ps with
  | some p => keyOf p.id + 1
  | none => 1

/-- Rounding as performed by Math.round (half away from minus infinity). -/
def roundQ (q : ℚ) : Int :=
  ⌊q + 1 / 2⌋

/-- Embedding of generateProjectMetadata at current time `now`. -/
def generateProjectMetadata (now : Int) (d : ProjectData) : ProjMeta :=
  let base : ProjMeta :=
    { progress := 0, health := strCodes "HEALTHY",
      timelineStatus := strCodes "ON_TRACK",
      financialStatus := strCodes "WITHIN_BUDGET", risks := [] }
  let m1 :=
    if d.startDate.truthy && d.endDate.truthy then
      match d.startDate.newDate, d.endDate.newDate with
      | some s, some e =>
          let total : ℚ := (e : ℚ) - (s : ℚ)
          let elapsed : ℚ := (now : ℚ) - (s : ℚ)
          let prog : ℚ :=
            if 0 < total ∧ 0 < elapsed then
              min ((roundQ (elapsed / total * 100) : ℚ)) 100
            else 0
          let m := { base with progress := prog }
          if e < now ∧ prog < 100 then
            { m with timelineStatus := strCodes "DELAYED",
                     health := strCodes "AT_RISK",
                     risks := m.risks ++ [strCodes "Project timeline exceeded"] }
          else if ((e : ℚ) - (now : ℚ)) / total < 1 / 5 ∧ prog < 80 then
            { m with timelineStatus := strCodes "AT_RISK",
                     health := strCodes "NEEDS_ATTENTION",
                     risks := m.risks ++ [strCodes "Approaching deadline with low progress"] }
          else m
      | _, _ => base
    else base
  if d.status == some (strCodes "ON_HOLD") then
    { m1 with health := strCodes "ON_HOLD" }
  else if d.status == some (strCodes "CANCELLED") then
    { m1 with health := strCodes "CANCELLED" }
  else m1

/-- Whether a value would survive the Mongoose cast to a required Number
path of the Project schema. -/
def castsNum (v : JsVal) : Bool :=
  match v with
  | .num _ => true
  | .str s => (strToNumber s).isSome
  | .date _ => true
  | _ => false

/-- Document-level validation run by Mongoose save against the Project
schema of models Project.js: required id, companyId, name, status and
createdBy; status constrained to the schema enumeration; budget at least 0
when present. -/
def projectSchemaOk (d : ProjectData) : Bool :=
  castsNum d.id && castsNum d.companyId && strTruthy d.name &&
  (match d.status with
   | some s => projectSchemaEnum.contains s
   | none => false) &&
  castsNum d.createdBy &&
  (d.budget == .undef ||
    (match d.budget.toNumber with
     | some q => decide (0 ≤ q)
     | none => false))

/-- A task field bag: the raw request body, the normalized payload and the
stored document share this shape. -/
structure TaskData where
  id : JsVal
  companyId : JsVal
  projectId : JsVal
  createdBy : JsVal
  taskName : Option (List Nat)
  description : Option (List Nat)
  notes : Option (List Nat)
  taskType : Option (List Nat)
  status : Option (List Nat)
  startDate : JsVal
  endDate : JsVal
  additionalData : JsVal
  createdAt : JsVal
  updatedAt : JsVal
deriving DecidableEq, Repr

/-- A task body with every field absent. -/
def emptyTask : TaskData :=
  { id := .undef, companyId := .undef, projectId := .undef, createdBy := .undef,
    taskName := none, description := none, notes := none, taskType := none,
    status := none, startDate := .undef, endDate := .undef,
    additionalData := .undef, createdAt := .undef, updatedAt := .undef }

/-- The task status enumeration of the controller. -/
def taskStatuses : List (List Nat) :=
  [strCodes "PLANNED", strCodes "IN_PROGRESS", strCodes "COMPLETED", strCodes "CANCELLED"]

/-- The task type enumeration of the controller. -/
def taskTypes : List (List Nat) :=
  [strCodes "WORK", strCodes "TRANSPORT", strCodes "MATERIAL", strCodes "TOOL",
   strCodes "INSPECTION", strCodes "MAINTENANCE", strCodes "ADMIN",
   strCodes "TRAINING", strCodes "OTHER"]

/-- Embedding of validateTaskInput, in source push order. -/
def validateTaskInput (d : TaskData) : List (List Nat) :=
  (if !d.companyId.truthy then [strCodes "Company ID is required"] else []) ++
  (if !d.projectId.truthy then [strCodes "Project ID is required"] else []) ++
  (if !strTruthy d.taskName then [strCodes "Task name is required"] else []) ++
  (if !strTruthy d.taskType then [strCodes "Task type is required"] else []) ++
  (if d.companyId.truthy && d.companyId.jsIsNaN then [strCodes "Company ID must be a number"] else []) ++
  (if d.projectId.truthy && d.projectId.jsIsNaN then [strCodes "Project ID must be a number"] else []) ++
  (if d.startDate.truthy && (d.startDate.newDate).isNone then [strCodes "Start date must be a valid date"] else []) ++
  (if d.endDate.truthy && (d.endDate.newDate).isNone then [strCodes "End date must be a valid date"] else []) ++
  (if d.startDate.truthy && d.endDate.truthy && dateLeDate d.endDate.newDate d.startDate.newDate then
     [strCodes "End date must be after start date"]
   else []) ++
  (match d.status with
   | some s =>
       if !s.isEmpty && !taskStatuses.contains s then
         [strCodes "Status must be one of: PLANNED, IN_PROGRESS, COMPLETED, CANCELLED"]
       else []
   | none => []) ++
  (match d.taskType with
   | some s =>
       if !s.isEmpty && !taskTypes.contains s then
         [strCodes "Task type must be one of: WORK, TRANSPORT, MATERIAL, TOOL, INSPECTION, MAINTENANCE, ADMIN, TRAINING, OTHER"]
       else []
   | none => [])

/-- The parseDate helper of normalizeTaskData: falsy input gives null, a
Date instance passes through unchanged (even an invalid one), any other
value is parsed and an invalid parse gives null. -/
def taskParseDate (v : JsVal) : JsVal :=
  if !v.truthy then .nul
  else
    match v with
    | .date t => .date t
    | _ =>
        match v.newDate with
        | some z => .date (some z)
        | none => .nul

/-- The guarded application of parseDate to a date field of a task body. -/
def taskDateStep (v : JsVal) : JsVal :=
  if v.truthy then taskParseDate v else v

/-- Embedding of normalizeTaskData at current time `now`. -/
def normalizeTaskData (now : Int) (d : TaskData) : TaskData :=
  { d with
    companyId := normNumField d.companyId
    projectId := normNumField d.projectId
    createdBy := normNumField d.createdBy
    taskName := normStrOpt trimWs d.taskName
    description := normStrOpt trimWs d.description
    notes := normStrOpt trimWs d.notes
    startDate := taskDateStep d.startDate
    endDate := taskDateStep d.endDate
    status := orDefaultStr d.status (strCodes "PLANNED")
    additionalData := orDefaultVal d.additionalData (.objMap [])
    createdAt := orDefaultVal d.createdAt (.date (some now)) }

/-- Combined store the handlers read and write. -/
structure ErpDb where
  companies : List CompanyDoc
  users : List UserDoc
  employees : List EmployeeData
  projects : List ProjectData
  tasks : List TaskData
deriving DecidableEq, Repr

/-- Error response body with the given status and joined message, the
failure envelope every entity controller emits. -/
def errResp (α : Type) (status : Nat) (m : List Nat) : ApiResponse α :=
  { status := status, success := some false, message := some m, data := none }

/-- The fallback applied by the source when an optional normalized string
field is persisted (field or null). -/
def orNull (v : Option (List Nat)) : Option (List Nat) :=
  if strTruthy v then v else none

/-- Embedding of POST api employees (createEmployee): validate, normalize,
run the referential and uniqueness checks, then persist with defaults.  The
Employee model file is not part of the repository snapshot; per section 3 of
the spec an employee document carries exactly the fields assembled here, so
the save step is modelled as a plain append. -/
def createEmployee (now : Int) (db : ErpDb) (body : EmployeeData) :
    ApiResponse EmployeeData × ErpDb :=
  let validationErrors := validateEmployeeInput body
  if !validationErrors.isEmpty then
    (errResp _ 400 (joinMsgs validationErrors), db)
  else
    let n := normalizeEmployeeData now body
    let refCheck := validateReferentialIntegrity db.companies db.users n.companyId n.userId
    let uniq := checkEmployeeUniqueness db.employees n.id n.employeeCode none
    if !refCheck.isValid then
      (errResp _ 400 (joinMsgs refCheck.errors), db)
    else if !uniq.isValid then
      (errResp _ 409 (joinMsgs uniq.errors), db)
    else
      let employeeData : EmployeeData :=
        { id := n.id
          companyId := n.companyId
          userId := if n.userId.truthy then n.userId else .nul
          employeeCode := n.employeeCode
          fullName := n.fullName
          phone := orNull n.phone
          jobTitle := orNull n.jobTitle
          photoUrl := orNull n.photoUrl
          status := if strTruthy n.status then n.status else some (strCodes "ACTIVE")
          createdAt := if n.createdAt.truthy then n.createdAt else .date (some now) }
      ({ status := 201, success := some true,
         message := some (strCodes "Employee created successfully"),
         data := some employeeData },
       { db with employees := db.employees ++ [employeeData] })

/-- Mongo update-document semantics for one field of the plain-object
update the controllers pass: an undefined field is stripped, anything else
is set. -/
def setVal (upd old : JsVal) : JsVal :=
  if upd == .undef then old else upd

/-- Update semantics for a field the model types as string-or-absent. -/
def setOpt (upd old : Option (List Nat)) : Option (List Nat) :=
  match upd with
  | some s => some s
  | none => old

/-- Replacement of the first matching document of a collection, the effect
of findOneAndUpdate. -/
def updateFirst (l : List α) (p : α → Bool) (f : α → α) : List α :=
  match l with
  | [] => []
  | x :: rest => if p x then f x :: rest else x :: updateFirst rest p f

/-- Field-wise set of an employee update document over a stored employee. -/
def applySetEmp (upd old : EmployeeData) : EmployeeData :=
  { id := setVal upd.id old.id
    companyId := setVal upd.companyId old.companyId
    userId := setVal upd.userId old.userId
    fullName := setOpt upd.fullName old.fullName
    employeeCode := setOpt upd.employeeCode old.employeeCode
    phone := setOpt upd.phone old.phone
    jobTitle := setOpt upd.jobTitle old.jobTitle
    photoUrl := setOpt upd.photoUrl old.photoUrl
    status := setOpt upd.status old.status
    createdAt := setVal upd.createdAt old.createdAt }

/-- Embedding of PUT api employees id (updateEmployee): parse the id
parameter, normalize the body, look up the record and run the referential
and uniqueness checks, then apply the update. -/
def updateEmployee (now : Int) (db : ErpDb) (idParam : List Nat) (body : EmployeeData) :
    ApiResponse EmployeeData × ErpDb :=
  match parseIntStr idParam with
  | none => (errResp _ 400 (strCodes "Invalid employee ID. Must be a positive integer."), db)
  | some z =>
    if z ≤ 0 then
      (errResp _ 400 (strCodes "Invalid employee ID. Must be a positive integer."), db)
    else
      let employeeId : JsVal := .num (z : ℚ)
      let updateData := normalizeEmployeeData now body
      let found := db.employees.any (fun e => e.id == employeeId)
      let refCheck :=
        if updateData.companyId.truthy || updateData.userId.truthy then
          validateReferentialIntegrity db.companies db.users
            (if updateData.companyId.truthy then updateData.companyId else employeeId)
            updateData.userId
        else { isValid := true, errors := [] }
      let uniq :=
        if strTruthy updateData.employeeCode then
          checkEmployeeUniqueness db.employees employeeId updateData.employeeCode (some employeeId)
        else { isValid := true, errors := [] }
      if !found then
        (errResp _ 404 (strCodes "Employee with ID " ++ employeeId.render ++ strCodes " not found"), db)
      else if !refCheck.isValid then
        (errResp _ 400 (joinMsgs refCheck.errors), db)
      else if !uniq.isValid then
        (errResp _ 409 (joinMsgs uniq.errors), db)
      else
        let updated :=
          match db.employees.find? (fun e => e.id == employeeId) with
          | some old => applySetEmp updateData old
          | none => updateData
        ({ status := 200, success := some true,
           message := some (strCodes "Employee updated successfully"),
           data := some updated },
         { db with employees := updateFirst db.employees (fun e => e.id == employeeId) (applySetEmp updateData) })

/-- Embedding of POST api projects (createProject): validate, normalize,
compute the next id and run the company and code checks, generate metadata
and hand the document to the Project model; a document the schema rejects
raises a Mongoose validation error, which the catch block answers with 500
since it is not a duplicate-key error. -/
def createProject (now : Int) (db : ErpDb) (body : ProjectData) :
    ApiResponse ProjectData × ErpDb :=
  let validationErrors := validateProjectInput body
  if !validationErrors.isEmpty then
    (errResp _ 400 (joinMsgs validationErrors), db)
  else
    let n := normalizeProjectData body
    let nextId := nextProjectId db.projects
    let companyExists := db.companies.any (fun c => c.id == n.companyId)
    let isCodeUnique :=
      if strTruthy n.code then
        checkProjectCodeUniqueness db.projects (match n.code with | some c => c | none => []) none
      else true
    if !companyExists then
      (errResp _ 400 (strCodes "Company with ID " ++ n.companyId.render ++ strCodes " does not exist"), db)
    else if !isCodeUnique then
      (errResp _ 409 (strCodes "Project code " ++ [39] ++
        (match n.code with | some c => c | none => []) ++ [39] ++ strCodes " already exists"), db)
    else
      let projectMetadata := generateProjectMetadata now n
      let doc : ProjectData :=
        { n with id := .num nextId, metadata := some projectMetadata,
                 createdAt := .date (some now), updatedAt := .date (some now) }
      if projectSchemaOk doc then
        ({ status := 201, success := some true,
           message := some (strCodes "Project created successfully"), data := some doc },
         { db with projects := db.projects ++ [doc] })
      else
        (errResp _ 500 (strCodes "Server error during project creation: Project validation failed"), db)

/-- Embedding of the task controller validateReferentialIntegrity: company
and project existence lookups. -/
def validateTaskRefs (cs : List CompanyDoc) (ps : List ProjectData)
    (companyId projectId : JsVal) : CheckResult :=
  let company := cs.any (fun c => c.id == companyId)
  let project := ps.any (fun p => p.id == projectId)
  let errs :=
    (if !company then
       [strCodes "Company with ID " ++ companyId.render ++ strCodes " does not exist"]
     else []) ++
    (if !project then
       [strCodes "Project with ID " ++ projectId.render ++ strCodes " does not exist"]
     else [])
  { isValid := errs.isEmpty, errors := errs }

/-- The auto-increment id computation of createTask: the id of the document
the id-descending findOne returns, plus one; 1 on an empty collection. -/
def nextTaskId (ts : List TaskData) : ℚ :=
  match maxIdHead (fun t => keyOf t.id) ts with
  | some t => keyOf t.id + 1
  | none => 1

/-- Modelled from the spec: document-level validation of the Task Mongoose
model, whose file models Task.js is not part of the repository snapshot.
Per section 3 of the spec a task requires companyId, projectId, taskName and
taskType, with status and taskType drawn from the fixed enumerations. -/
def taskSchemaOk (d : TaskData) : Bool :=
  castsNum d.companyId && castsNum d.projectId && strTruthy d.taskName &&
  (match d.taskType with
   | some s => taskTypes.contains s
   | none => false) &&
  (match d.status with
   | some s => taskStatuses.contains s
   | none => true)

/-- Embedding of POST api tasks (createTask): validate, normalize, generate
an id when the body carries none, check references and persist. -/
def createTask (now : Int) (db : ErpDb) (body : TaskData) :
    ApiResponse TaskData × ErpDb :=
  let validationErrors := validateTaskInput body
  if !validationErrors.isEmpty then
    (errResp _ 400 (joinMsgs validationErrors), db)
  else
    let n0 := normalizeTaskData now body
    let n := if n0.id.truthy then n0 else { n0 with id := .num (nextTaskId db.tasks) }
    let refCheck := validateTaskRefs db.companies db.projects n.companyId n.projectId
    if !refCheck.isValid then
      (errResp _ 400 (joinMsgs refCheck.errors), db)
    else
      let doc := { n with updatedAt := .date (some now) }
      if taskSchemaOk doc then
        ({ status := 201, success := some true,
           message := some (strCodes "Task created successfully"), data := some doc },
         { db with tasks := db.tasks ++ [doc] })
      else
        (errResp _ 400 (strCodes "Data validation error"), db)

/-- Query parameters of GET api tasks, all strings when present. -/
structure TaskQuery where
  page : Option (List Nat)
  limit : Option (List Nat)
  companyId : Option (List Nat)
  projectId : Option (List Nat)
  status : Option (List Nat)
  taskType : Option (List Nat)
  startDate : Option (List Nat)
  endDate : Option (List Nat)
deriving DecidableEq, Repr

/-- A query with no parameters supplied. -/
def emptyTaskQuery : TaskQuery :=
  { page := none, limit := none, companyId := none, projectId := none,
    status := none, taskType := none, startDate := none, endDate := none }

/-- The parseInt-or-default idiom of the list handlers (NaN and 0 both fall
back, mirroring the logical-or). -/
def qInt (v : Option (List Nat)) (dflt : Int) : Int :=
  match v with
  | some s =>
      match parseIntStr s with
      | some z => if z = 0 then dflt else z
      | none => dflt
  | none => dflt

/-- The Mongo filter getAllTasks builds from its query parameters, applied
to one stored task. -/
def matchesTaskQuery (q : TaskQuery) (t : TaskData) : Bool :=
  (match q.companyId with
   | some s =>
       match parseIntStr s with
       | some z => t.companyId == .num (z : ℚ)
       | none => false
   | none => true) &&
  (match q.projectId with
   | some s =>
       match parseIntStr s with
       | some z => t.projectId == .num (z : ℚ)
       | none => false
   | none => true) &&
  (match q.status with
   | some s => t.status == some (upperStr s)
   | none => true) &&
  (match q.taskType with
   | some s => t.taskType == some (upperStr s)
   | none => true) &&
  (match q.startDate, q.endDate with
   | some sFrom, some sTo =>
       (match dateParseISO sFrom, dateParseISO sTo, t.startDate with
        | some lo, some hi, .date (some z) => decide (lo ≤ z) && decide (z ≤ hi)
        | _, _, _ => false)
   | _, _ => true)

/-- Sort order of GET api tasks: createdAt descending, then id descending. -/
def taskListOrder (a b : TaskData) : Bool :=
  decide (keyOf b.createdAt < keyOf a.createdAt) ||
  (decide (keyOf a.createdAt = keyOf b.createdAt) && decide (keyOf b.id ≤ keyOf a.id))

/-- Company-name enrichment of a task response row. -/
def companyNameOf (db : ErpDb) (v : JsVal) : List Nat :=
  match db.companies.find? (fun c => c.id == v) with
  | some c => c.name
  | none => strCodes "Unknown Company"

/-- Project-name enrichment of a task response row. -/
def projectNameOf (db : ErpDb) (v : JsVal) : List Nat :=
  match db.projects.find? (fun p => p.id == v) with
  | some p => (match p.name with | some s => s | none => [])
  | none => strCodes "Unknown Project"

/-- Embedding of GET api tasks (getAllTasks): filter, sort, paginate and
enrich each row with the company and project names. -/
def getAllTasks (db : ErpDb) (q : TaskQuery) :
    ApiResponse (List (TaskData × List Nat × List Nat)) :=
  let page := qInt q.page 1
  let limit := qInt q.limit 1000
  let skip := (page - 1) * limit
  let selected :=
    (((db.tasks.mergeSort taskListOrder).filter (matchesTaskQuery q)).drop skip.toNat).take limit.toNat
  { status := 200, success := some true, message := none,
    data := some (selected.map (fun t => (t, companyNameOf db t.companyId, projectNameOf db t.projectId))) }

/-- Field-wise set of a task update document over a stored task. -/
def applySetTask (upd old : TaskData) : TaskData :=
  { id := setVal upd.id old.id
    companyId := setVal upd.companyId old.companyId
    projectId := setVal upd.projectId old.projectId
    createdBy := setVal upd.createdBy old.createdBy
    taskName := setOpt upd.taskName old.taskName
    description := setOpt upd.description old.description
    notes := setOpt upd.notes old.notes
    taskType := setOpt upd.taskType old.taskType
    status := setOpt upd.status old.status
    startDate := setVal upd.startDate old.startDate
    endDate := setVal upd.endDate old.endDate
    additionalData := setVal upd.additionalData old.additionalData
    createdAt := setVal upd.createdAt old.createdAt
    updatedAt := setVal upd.updatedAt old.updatedAt }

/-- Embedding of PUT api tasks id (updateTask): the body is normalized (with
its defaults applied), updatedAt is stamped and the whole object is passed
to findOneAndUpdate.  A purely numeric id parameter addresses the
application id; the ObjectId branch of the source addresses the storage id,
which the model does not carry, so it finds nothing here. -/
def updateTask (now : Int) (db : ErpDb) (idParam : List Nat) (body : TaskData) :
    ApiResponse (TaskData × List Nat) × ErpDb :=
  let n := normalizeTaskData now body
  let updateData := { n with updatedAt := .date (some now) }
  if !idParam.isEmpty && idParam.all isDigitCh then
    let tid : JsVal := .num (valOfDigits idParam : ℚ)
    match db.tasks.find? (fun t => t.id == tid) with
    | some old =>
        let newDoc := applySetTask updateData old
        ({ status := 200, success := some true,
           message := some (strCodes "Task updated successfully"),
           data := some (newDoc, companyNameOf db newDoc.companyId) },
         { db with tasks := updateFirst db.tasks (fun t => t.id == tid) (applySetTask updateData) })
    | none => (errResp _ 404 (strCodes "Task not found"), db)
  else
    (errResp _ 404 (strCodes "Task not found"), db)

/-- Modelled from the spec: a Material document.  The Material model file is
not part of the repository snapshot; per section 3 of the spec it is a
simple catalog entity with no company scoping, so the body is stored as an
opaque field bag. -/
structure MaterialData where
  fields : List (List Nat × JsVal)
deriving DecidableEq, Repr

/-- Embedding of POST api materials (createMaterial): the created document
itself is the response body, so the envelope carries no success key. -/
def createMaterial (store : List MaterialData) (body : MaterialData) :
    ApiResponse MaterialData × List MaterialData :=
  ({ status := 201, success := none, message := none, data := some body },
   store ++ [body])

/-- The unmatched-route handler of index.js. -/
def notFoundResponse : ApiResponse Unit :=
  { status := 404, success := none, message := some (strCodes "Route not found"), data := none }

/-- The last-resort error middleware of index.js. -/
def errorMiddlewareResponse : ApiResponse Unit :=
  { status := 500, success := none, message := some (strCodes "Something went wrong!"), data := none }

theorem containsSub_of_prefix (m l : List Nat) (h : m <+: l) : containsSub m l = true := by
  cases l with
  | nil =>
      have hm : m = [] := List.prefix_nil.mp h
      subst hm
      rfl
  | cons c t =>
      have hp : m.isPrefixOf (c :: t) = true := List.isPrefixOf_iff_prefix.mpr h
      simp [containsSub, hp]

theorem containsSub_append_left (m a l : List Nat) (h : containsSub m l = true) :
    containsSub m (a ++ l) = true := by
  induction a with
  | nil => simpa using h
  | cons c t ih => simp [containsSub, ih]

theorem containsSub_joinMsgs (m : List Nat) (l : List (List Nat)) (h : m ∈ l) :
    containsSub m (joinMsgs l) = true := by
  induction l with
  | nil => cases h
  | cons a rest ih =>
      cases rest with
      | nil =>
          have hm : m = a := by simpa using h
          subst hm
          exact containsSub_of_prefix _ _ (List.prefix_refl _)
      | cons b rest2 =>
          have hj : joinMsgs (a :: b :: rest2) = a ++ strCodes ", " ++ joinMsgs (b :: rest2) := rfl
          rw [hj]
          rcases List.mem_cons.mp h with h1 | h2
          · subst h1
            refine containsSub_of_prefix _ _ ?_
            rw [List.append_assoc]
            exact List.prefix_append _ _
          · rw [List.append_assoc]
            exact containsSub_append_left _ _ _
              (containsSub_append_left _ _ _ (ih h2))

/-- Head character is not whitespace (vacuously true on the empty string). -/
def noLeadWs (l : List Nat) : Bool :=
  match l.head? with
  | none => true
  | some c => !isWs c

/-- Last character is not whitespace (vacuously true on the empty string). -/
def noTrailWs (l : List Nat) : Bool :=
  match l.getLast? with
  | none => true
  | some c => !isWs c

theorem noLeadWs_reverse (l : List Nat) : noLeadWs l.reverse = noTrailWs l := by
  unfold noLeadWs noTrailWs
  rw [List.head?_reverse]

theorem noLeadWs_dropWhile (l : List Nat) : noLeadWs (l.dropWhile isWs) = true := by
  have h := List.head?_dropWhile_not isWs l
  unfold noLeadWs
  cases hd : (l.dropWhile isWs).head? with
  | none => rfl
  | some c =>
      rw [hd] at h
      simp [h]

theorem dropWhile_eq_self_of_noLead (l : List Nat) (h : noLeadWs l = true) :
    l.dropWhile isWs = l := by
  cases l with
  | nil => rfl
  | cons c t =>
      have hc : isWs c = false := by simpa [noLeadWs] using h
      simp [List.dropWhile_cons, hc]

theorem noLead_of_prefix (s t : List Nat) (hp : s <+: t) (ht : noLeadWs t = true) :
    noLeadWs s = true := by
  cases s with
  | nil => rfl
  | cons c r =>
      obtain ⟨u, hu⟩ := hp
      subst hu
      simpa [noLeadWs] using ht

theorem trimWs_noLead (l : List Nat) : noLeadWs (trimWs l) = true := by
  unfold trimWs
  refine noLead_of_prefix _ (l.dropWhile isWs) ?_ (noLeadWs_dropWhile l)
  have hs : ((l.dropWhile isWs).reverse.dropWhile isWs) <:+ (l.dropWhile isWs).reverse :=
    List.dropWhile_suffix isWs
  have := List.reverse_prefix.mpr hs
  simpa using this

theorem trimWs_noTrail (l : List Nat) : noTrailWs (trimWs l) = true := by
  unfold trimWs
  rw [← noLeadWs_reverse]
  rw [List.reverse_reverse]
  exact noLeadWs_dropWhile _

theorem trimWs_eq_self (l : List Nat) (h1 : noLeadWs l = true) (h2 : noTrailWs l = true) :
    trimWs l = l := by
  unfold trimWs
  rw [dropWhile_eq_self_of_noLead l h1]
  rw [dropWhile_eq_self_of_noLead l.reverse (by rw [noLeadWs_reverse]; exact h2)]
  exact List.reverse_reverse l

theorem trimWs_idem (l : List Nat) : trimWs (trimWs l) = trimWs l :=
  trimWs_eq_self _ (trimWs_noLead l) (trimWs_noTrail l)

/-- Whitespace characters of a string are all literal spaces. -/
def allSpace (l : List Nat) : Bool :=
  l.all (fun c => !isWs c || c == 32)

/-- No two adjacent whitespace characters. -/
def wsSep : List Nat → Bool
  | [] => true
  | [_] => true
  | a :: b :: rest => !(isWs a && isWs b) && wsSep (b :: rest)

theorem collapseWs_ne_nil (c : Nat) (rest : List Nat) : collapseWs (c :: rest) ≠ [] := by
  unfold collapseWs collapseOn
  by_cases h : isWs c = true <;> simp [h]

theorem collapseWs_noLead (l : List Nat) (h : noLeadWs l = true) :
    noLeadWs (collapseWs l) = true := by
  cases l with
  | nil => rfl
  | cons c rest =>
      have hc : isWs c = false := by simpa [noLeadWs] using h
      simp [collapseWs, collapseOn, hc, noLeadWs]

theorem noLead_collapseOn_true (l : List Nat) : noLeadWs (collapseOn true l) = true := by
  induction l with
  | nil => rfl
  | cons c rest ih =>
      by_cases h : isWs c = true
      · simpa [collapseOn, h] using ih
      · simp [collapseOn, h, noLeadWs]

theorem collapseOn_allSpace (b : Bool) (l : List Nat) : allSpace (collapseOn b l) = true := by
  induction l generalizing b with
  | nil => rfl
  | cons c rest ih =>
      by_cases h : isWs c = true
      · cases b with
        | true => simpa [collapseOn, h] using ih true
        | false =>
            have h2 := ih true
            simp only [collapseOn, if_pos h]
            simp only [allSpace, List.all_cons] at h2 ⊢
            simp [h2]
      · have h2 := ih false
        simp only [collapseOn, if_neg h]
        simp only [allSpace, List.all_cons] at h2 ⊢
        simp [h, h2]

theorem collapseWs_allSpace (l : List Nat) : allSpace (collapseWs l) = true :=
  collapseOn_allSpace false l

theorem collapseOn_wsSep (b : Bool) (l : List Nat) : wsSep (collapseOn b l) = true := by
  induction l generalizing b with
  | nil => rfl
  | cons c rest ih =>
      by_cases h : isWs c = true
      · cases b with
        | true => simpa [collapseOn, h] using ih true
        | false =>
            simp only [collapseOn, if_pos h]
            cases hx : collapseOn true rest with
            | nil => simp [wsSep]
            | cons d ds =>
                have hd : isWs d = false := by
                  have hl := noLead_collapseOn_true rest
                  rw [hx] at hl
                  simpa [noLeadWs] using hl
                have hw := ih true
                rw [hx] at hw
                simp [wsSep, hd, hw]
      · simp only [collapseOn, if_neg h]
        cases hx : collapseOn false rest with
        | nil => simp [wsSep]
        | cons d ds =>
            have hw := ih false
            rw [hx] at hw
            simp [wsSep, h, hw]

theorem collapseWs_wsSep (l : List Nat) : wsSep (collapseWs l) = true :=
  collapseOn_wsSep false l

theorem collapseOn_true_of_noLead (l : List Nat) (h : noLeadWs l = true) :
    collapseOn true l = collapseOn false l := by
  cases l with
  | nil => rfl
  | cons c rest =>
      have hc : isWs c = false := by simpa [noLeadWs] using h
      simp [collapseOn, hc]

theorem collapseWs_fix (l : List Nat) (ha : allSpace l = true) (hs : wsSep l = true) :
    collapseWs l = l := by
  unfold collapseWs
  induction l with
  | nil => rfl
  | cons c rest ih =>
      simp only [allSpace, List.all_cons, Bool.and_eq_true] at ha
      have haRest : allSpace rest = true := by
        simp only [allSpace]
        exact ha.2
      have hsRest : wsSep rest = true := by
        cases rest with
        | nil => rfl
        | cons b t =>
            have h2 : (!(isWs c && isWs b) && wsSep (b :: t)) = true := hs
            simp only [Bool.and_eq_true] at h2
            exact h2.2
      by_cases hc : isWs c = true
      · have hc32 : c = 32 := by
          have h1 := ha.1
          simp [hc] at h1
          exact h1
        have hLeadRest : noLeadWs rest = true := by
          cases rest with
          | nil => rfl
          | cons b t =>
              have h2 : (!(isWs c && isWs b) && wsSep (b :: t)) = true := hs
              simp only [Bool.and_eq_true] at h2
              have h3 := h2.1
              simp [hc] at h3
              simp [noLeadWs, h3]
        simp only [collapseOn, if_pos hc]
        rw [if_neg (by simp : ¬(false = true))]
        rw [collapseOn_true_of_noLead rest hLeadRest, ih haRest hsRest, hc32]
      · simp only [collapseOn, if_neg hc]
        rw [ih haRest hsRest]

theorem noTrail_cons_of_ne (c : Nat) (rest : List Nat) (hne : rest ≠ []) :
    noTrailWs (c :: rest) = noTrailWs rest := by
  unfold noTrailWs
  cases rest with
  | nil => exact absurd rfl hne
  | cons b t => rw [List.getLast?_cons_cons]

theorem collapseOn_ne_nil_of_exists (l : List Nat) (h : ∃ x ∈ l, isWs x = false) :
    ∀ b, collapseOn b l ≠ [] := by
  induction l with
  | nil =>
      obtain ⟨x, hx, _⟩ := h
      cases hx
  | cons c rest ih =>
      intro b
      by_cases hc : isWs c = true
      · obtain ⟨x, hx, hxw⟩ := h
        have hxr : x ∈ rest := by
          rcases List.mem_cons.mp hx with h1 | h2
          · subst h1
            rw [hc] at hxw
            cases hxw
          · exact h2
        cases b with
        | true =>
            simp only [collapseOn, if_pos hc, if_pos rfl]
            exact ih ⟨x, hxr, hxw⟩ true
        | false => simp [collapseOn, hc]
      · cases b <;> simp [collapseOn, hc]

theorem collapseOn_noTrail (l : List Nat) :
    ∀ b, noTrailWs l = true → noTrailWs (collapseOn b l) = true := by
  induction l with
  | nil => intro b _; rfl
  | cons c rest ih =>
      intro b h
      by_cases hc : isWs c = true
      · have hne : rest ≠ [] := by
          intro hnil
          subst hnil
          simp [noTrailWs, hc] at h
        have hTr : noTrailWs rest = true := by
          rw [← noTrail_cons_of_ne c rest hne]
          exact h
        have hex : ∃ x ∈ rest, isWs x = false := by
          obtain ⟨x, hx⟩ : ∃ x, rest.getLast? = some x := by
            cases hg : rest.getLast? with
            | none => exact absurd (List.getLast?_eq_none_iff.mp hg) hne
            | some x => exact ⟨x, rfl⟩
          refine ⟨x, List.mem_of_mem_getLast? (by rw [hx]; rfl), ?_⟩
          rw [noTrailWs, hx] at hTr
          simpa using hTr
        have hR := ih true hTr
        have hNe := collapseOn_ne_nil_of_exists rest hex true
        cases b with
        | true =>
            simp only [collapseOn, if_pos hc, if_pos rfl]
            exact hR
        | false =>
            simp only [collapseOn, if_pos hc]
            rw [if_neg (by simp : ¬(false = true))]
            rw [noTrail_cons_of_ne 32 _ hNe]
            exact hR
      · by_cases hne : rest = []
        · subst hne
          cases b <;> simpa [collapseOn, hc] using h
        · have hTr : noTrailWs rest = true := by
            rw [← noTrail_cons_of_ne c rest hne]
            exact h
          have hR := ih false hTr
          have hNe : collapseOn false rest ≠ [] := by
            cases hd : rest with
            | nil => exact absurd hd hne
            | cons d ds => exact collapseWs_ne_nil d ds
          cases b <;>
            (simp only [collapseOn, if_neg hc]
             rw [noTrail_cons_of_ne c _ hNe]
             exact hR)

theorem noTrail_suffix (s t : List Nat) (hs : s <:+ t) (hne : s ≠ [])
    (ht : noTrailWs t = true) : noTrailWs s = true := by
  obtain ⟨u, hu⟩ := hs
  subst hu
  unfold noTrailWs at *
  rw [List.getLast?_append] at ht
  cases hsl : s.getLast? with
  | none => rfl
  | some c =>
      rw [hsl] at ht
      simpa using ht

theorem collapseWs_noTrail (l : List Nat) (h : noTrailWs l = true) :
    noTrailWs (collapseWs l) = true :=
  collapseOn_noTrail l false h

theorem cleanStr_idem (s : List Nat) :
    collapseWs (trimWs (collapseWs (trimWs s))) = collapseWs (trimWs s) := by
  have h1 : noLeadWs (trimWs s) = true := trimWs_noLead s
  have h2 : noTrailWs (trimWs s) = true := trimWs_noTrail s
  have h3 : noLeadWs (collapseWs (trimWs s)) = true := collapseWs_noLead _ h1
  have h4 : noTrailWs (collapseWs (trimWs s)) = true := collapseWs_noTrail _ h2
  rw [trimWs_eq_self _ h3 h4]
  exact collapseWs_fix _ (collapseWs_allSpace _) (collapseWs_wsSep _)

theorem upCh_idem (c : Nat) : upCh (upCh c) = upCh c := by
  simp only [upCh]
  split_ifs <;> omega

theorem upperStr_idem (l : List Nat) : upperStr (upperStr l) = upperStr l := by
  induction l with
  | nil => rfl
  | cons c t ih =>
      simp only [upperStr, List.map_cons] at ih ⊢
      rw [upCh_idem]
      exact congrArg _ ih

theorem isWs_of_digit (c : Nat) (h : isDigitCh c = true) : isWs c = false := by
  simp [isDigitCh] at h
  simp [isWs]
  omega

theorem trimWs_of_digits (l : List Nat) (h : ∀ c ∈ l, isDigitCh c = true) :
    trimWs l = l := by
  apply trimWs_eq_self
  · unfold noLeadWs
    cases hx : l.head? with
    | none => rfl
    | some c =>
        have hc : c ∈ l := by
          cases l with
          | nil => simp at hx
          | cons a t =>
              simp at hx
              subst hx
              exact List.mem_cons_self _ _
        simp [isWs_of_digit c (h c hc)]
  · unfold noTrailWs
    cases hx : l.getLast? with
    | none => rfl
    | some c =>
        have hc : c ∈ l := List.mem_of_mem_getLast? (by rw [hx]; rfl)
        simp [isWs_of_digit c (h c hc)]

theorem phoneClean_idem (s : List Nat) :
    (trimWs ((trimWs s).filter isDigitCh)).filter isDigitCh = (trimWs s).filter isDigitCh := by
  rw [trimWs_of_digits _ (fun c hc => (List.mem_filter.mp hc).2)]
  rw [List.filter_filter]
  simp

theorem normStrOpt_idem (f : List Nat → List Nat) (hf : ∀ s, f (f s) = f s)
    (v : Option (List Nat)) :
    normStrOpt f (normStrOpt f v) = normStrOpt f v := by
  cases v with
  | none => rfl
  | some s =>
      by_cases h : s.isEmpty = true
      · simp [normStrOpt, h]
      · simp only [normStrOpt, h, if_neg]
        by_cases h2 : (f s).isEmpty = true <;> simp [h, h2, hf s]

theorem normStrOpt_trim_idem (v : Option (List Nat)) :
    normStrOpt trimWs (normStrOpt trimWs v) = normStrOpt trimWs v :=
  normStrOpt_idem _ trimWs_idem v

theorem normStrOpt_clean_idem (v : Option (List Nat)) :
    normStrOpt (fun s => collapseWs (trimWs s)) (normStrOpt (fun s => collapseWs (trimWs s)) v) =
      normStrOpt (fun s => collapseWs (trimWs s)) v :=
  normStrOpt_idem _ cleanStr_idem v

theorem isWs_upCh (c : Nat) : isWs (upCh c) = isWs c := by
  simp only [upCh]
  split_ifs with h
  · have h1 : isWs c = false := by simp [isWs]; omega
    have h2 : isWs (c - 32) = false := by simp [isWs]; omega
    rw [h1, h2]
  · rfl

theorem noLeadWs_upperStr (l : List Nat) : noLeadWs (upperStr l) = noLeadWs l := by
  cases l with
  | nil => rfl
  | cons c t => simp [noLeadWs, upperStr, isWs_upCh]

theorem noTrailWs_upperStr (l : List Nat) : noTrailWs (upperStr l) = noTrailWs l := by
  unfold noTrailWs upperStr
  rw [List.getLast?_map]
  cases l.getLast? with
  | none => rfl
  | some c => simp [isWs_upCh]

theorem normStrOpt_upperTrim_idem (v : Option (List Nat)) :
    normStrOpt (fun s => upperStr (trimWs s)) (normStrOpt (fun s => upperStr (trimWs s)) v) =
      normStrOpt (fun s => upperStr (trimWs s)) v := by
  refine normStrOpt_idem _ (fun s => ?_) v
  have ht : trimWs (upperStr (trimWs s)) = upperStr (trimWs s) := by
    apply trimWs_eq_self
    · rw [noLeadWs_upperStr]
      exact trimWs_noLead s
    · rw [noTrailWs_upperStr]
      exact trimWs_noTrail s
  rw [ht, upperStr_idem]

theorem normStrOpt_phone_idem (v : Option (List Nat)) :
    normStrOpt (fun s => (trimWs s).filter isDigitCh)
        (normStrOpt (fun s => (trimWs s).filter isDigitCh) v) =
      normStrOpt (fun s => (trimWs s).filter isDigitCh) v :=
  normStrOpt_idem _ phoneClean_idem v

theorem normStrOpt_upper_idem (v : Option (List Nat)) :
    normStrOpt upperStr (normStrOpt upperStr v) = normStrOpt upperStr v :=
  normStrOpt_idem _ upperStr_idem v

theorem truncQ_intCast (z : Int) : truncQ (z : ℚ) = z := by
  unfold truncQ
  split_ifs
  · exact Int.floor_intCast z
  · exact Int.ceil_intCast z

theorem normNumField_idem (v : JsVal) : normNumField (normNumField v) = normNumField v := by
  unfold normNumField
  by_cases h : v.truthy = true
  · simp only [h, if_pos]
    unfold jsParseIntVal
    cases hp : v.parseIntQ with
    | none => simp [JsVal.truthy]
    | some z =>
        by_cases hz : (z : ℚ) = 0
        · simp [JsVal.truthy, hz]
        · simp [JsVal.truthy, hz, JsVal.parseIntQ, truncQ_intCast]
  · simp [h]

theorem jsParseFloatVal_shape (v : JsVal) :
    (∃ q, jsParseFloatVal v = .num q) ∨ jsParseFloatVal v = .nan := by
  cases v with
  | str s =>
      cases h : parseFloatStr s with
      | none => right; simp [jsParseFloatVal, h]
      | some q => left; exact ⟨q, by simp [jsParseFloatVal, h]⟩
  | num q => left; exact ⟨q, rfl⟩
  | undef => right; rfl
  | nul => right; rfl
  | nan => right; rfl
  | date t => right; rfl
  | objMap e => right; rfl

theorem projBudgetNorm_idem (v : JsVal) :
    projBudgetNorm (projBudgetNorm v) = projBudgetNorm v := by
  unfold projBudgetNorm
  by_cases h : v.truthy = true
  · simp only [h, if_pos]
    rcases jsParseFloatVal_shape v with ⟨q, hq⟩ | hq
    · rw [hq]
      by_cases hz : q = 0
      · subst hz
        simp [JsVal.truthy, jsParseFloatVal]
      · simp [JsVal.truthy, hz, jsParseFloatVal]
    · rw [hq]
      simp [JsVal.truthy, jsParseFloatVal]
  · simp only [h, if_neg, Bool.not_eq_true]
    by_cases h2 : v.truthy = true
    · exact absurd h2 h
    · simp [h2, JsVal.truthy, jsParseFloatVal]

theorem normCreatedAtEmp_idem (now : Int) (v : JsVal) :
    normCreatedAtEmp now (normCreatedAtEmp now v) = normCreatedAtEmp now v := by
  unfold normCreatedAtEmp
  by_cases h : v.truthy = true
  · simp only [h, if_pos]
    cases hv : v.newDate with
    | some t => simp [JsVal.truthy, JsVal.newDate]
    | none => simp [JsVal.truthy, JsVal.newDate]
  · simp [h]

theorem normDateProj_idem (v : JsVal) :
    normDateProj (normDateProj v) = normDateProj v := by
  unfold normDateProj
  by_cases h : v.truthy = true
  · simp only [h, if_pos]
    cases hv : v.newDate with
    | some t => simp [JsVal.truthy, JsVal.newDate]
    | none => simp [JsVal.truthy]
  · simp [h]

theorem taskParseDate_date (t : Option Int) : taskParseDate (.date t) = .date t := by
  simp [taskParseDate, JsVal.truthy]

theorem taskDateStep_idem (v : JsVal) :
    taskDateStep (taskDateStep v) = taskDateStep v := by
  unfold taskDateStep
  by_cases h : v.truthy = true
  · simp only [h, if_pos]
    unfold taskParseDate
    simp only [h, Bool.not_true, Bool.false_eq_true, if_false]
    cases v with
    | date t => simp [JsVal.truthy, taskParseDate]
    | undef => simp [JsVal.truthy] at h
    | nul => simp [JsVal.truthy] at h
    | nan => simp [JsVal.truthy] at h
    | num q =>
        cases hv : (JsVal.num q).newDate with
        | some z => simp [hv, JsVal.truthy, taskParseDate]
        | none => simp [hv, JsVal.truthy]
    | str s =>
        cases hv : (JsVal.str s).newDate with
        | some z => simp [hv, JsVal.truthy, taskParseDate]
        | none => simp [hv, JsVal.truthy]
    | objMap e =>
        cases hv : (JsVal.objMap e).newDate with
        | some z => simp [hv, JsVal.truthy, taskParseDate]
        | none => simp [hv, JsVal.truthy]
  · simp [h]

theorem orDefaultStr_idem (v : Option (List Nat)) (dflt : List Nat)
    (hd : dflt.isEmpty = false) :
    orDefaultStr (orDefaultStr v dflt) dflt = orDefaultStr v dflt := by
  unfold orDefaultStr
  by_cases h : strTruthy v = true
  · simp [h]
  · have hv : (if strTruthy v = true then v else some dflt) = some dflt := if_neg h
    rw [hv]
    have hT : strTruthy (some dflt) = true := by simp [strTruthy, hd]
    rw [if_pos hT]

theorem orDefaultVal_idem (v dflt : JsVal) (hd : dflt.truthy = true) :
    orDefaultVal (orDefaultVal v dflt) dflt = orDefaultVal v dflt := by
  unfold orDefaultVal
  by_cases h : v.truthy = true
  · simp [h]
  · simp [h, hd]

theorem normalizeEmployeeData_idem (now : Int) (d : EmployeeData) :
    normalizeEmployeeData now (normalizeEmployeeData now d) = normalizeEmployeeData now d := by
  cases d
  simp [normalizeEmployeeData, normNumField_idem, normStrOpt_trim_idem,
    normStrOpt_clean_idem, normStrOpt_phone_idem, normStrOpt_upper_idem,
    normCreatedAtEmp_idem]

theorem orDefaultStr_planning_idem (v : Option (List Nat)) :
    orDefaultStr (orDefaultStr v (strCodes "PLANNING")) (strCodes "PLANNING") =
      orDefaultStr v (strCodes "PLANNING") :=
  orDefaultStr_idem v _ (by decide)

theorem orDefaultStr_planned_idem (v : Option (List Nat)) :
    orDefaultStr (orDefaultStr v (strCodes "PLANNED")) (strCodes "PLANNED") =
      orDefaultStr v (strCodes "PLANNED") :=
  orDefaultStr_idem v _ (by decide)

theorem orDefaultVal_obj_idem (v : JsVal) :
    orDefaultVal (orDefaultVal v (.objMap [])) (.objMap []) =
      orDefaultVal v (.objMap []) :=
  orDefaultVal_idem v _ rfl

theorem orDefaultVal_date_idem (now : Int) (v : JsVal) :
    orDefaultVal (orDefaultVal v (.date (some now))) (.date (some now)) =
      orDefaultVal v (.date (some now)) :=
  orDefaultVal_idem v _ rfl

theorem normalizeProjectData_idem (d : ProjectData) :
    normalizeProjectData (normalizeProjectData d) = normalizeProjectData d := by
  cases d
  simp [normalizeProjectData, normNumField_idem, projBudgetNorm_idem,
    normStrOpt_clean_idem, normStrOpt_upperTrim_idem, normStrOpt_trim_idem,
    normDateProj_idem, orDefaultStr_planning_idem]

theorem normalizeTaskData_idem (now : Int) (d : TaskData) :
    normalizeTaskData now (normalizeTaskData now d) = normalizeTaskData now d := by
  cases d
  simp [normalizeTaskData, normNumField_idem, normStrOpt_trim_idem,
    taskDateStep_idem, orDefaultStr_planned_idem, orDefaultVal_obj_idem,
    orDefaultVal_date_idem]

theorem refIntegrity_company_missing (cs : List CompanyDoc) (us : List UserDoc)
    (companyId userId : JsVal)
    (hc : cs.any (fun c => c.id == companyId) = false) :
    (validateReferentialIntegrity cs us companyId userId).isValid = false ∧
      (strCodes "Company with ID " ++ companyId.render ++ strCodes " does not exist") ∈
        (validateReferentialIntegrity cs us companyId userId).errors := by
  unfold validateReferentialIntegrity
  constructor
  · simp [hc]
  · simp [hc]

theorem refIntegrity_user_missing (cs : List CompanyDoc) (us : List UserDoc)
    (companyId userId : JsVal)
    (hu1 : userId.truthy = true)
    (hu2 : us.any (fun u => u.id == userId) = false) :
    (validateReferentialIntegrity cs us companyId userId).isValid = false := by
  unfold validateReferentialIntegrity
  simp [hu1, hu2]

theorem refIntegrity_ok (cs : List CompanyDoc) (us : List UserDoc)
    (companyId userId : JsVal)
    (hc : cs.any (fun c => c.id == companyId) = true)
    (hu : userId.truthy = true → us.any (fun u => u.id == userId) = true) :
    (validateReferentialIntegrity cs us companyId userId).isValid = true := by
  unfold validateReferentialIntegrity
  by_cases h : userId.truthy = true
  · simp [hc, h, hu h]
  · simp [hc, h]

/-- C1: an employee-creation request that passes input validation but whose
companyId (or supplied userId) does not reference a stored company (user)
is answered with HTTP 400, nothing is written, and in the missing-company
case the message contains the referential template with the normalized id. -/
theorem employee_create_missing_reference (now : Int) (db : ErpDb) (body : EmployeeData)
    (hval : validateEmployeeInput body = [])
    (hmiss :
      db.companies.any (fun c => c.id == (normalizeEmployeeData now body).companyId) = false ∨
        ((normalizeEmployeeData now body).userId.truthy = true ∧
          db.users.any (fun u => u.id == (normalizeEmployeeData now body).userId) = false)) :
    (createEmployee now db body).1.status = 400 ∧
      (createEmployee now db body).1.success = some false ∧
      (createEmployee now db body).2 = db ∧
      (db.companies.any (fun c => c.id == (normalizeEmployeeData now body).companyId) = false →
        ∃ m, (createEmployee now db body).1.message = some m ∧
          containsSub (strCodes "Company with ID " ++
            (normalizeEmployeeData now body).companyId.render ++
            strCodes " does not exist") m = true) := by
  have hIv : (validateReferentialIntegrity db.companies db.users
      (normalizeEmployeeData now body).companyId
      (normalizeEmployeeData now body).userId).isValid = false := by
    rcases hmiss with hc | ⟨hu1, hu2⟩
    · exact (refIntegrity_company_missing _ _ _ _ hc).1
    · exact refIntegrity_user_missing _ _ _ _ hu1 hu2
  have hrun : createEmployee now db body =
      (errResp _ 400 (joinMsgs (validateReferentialIntegrity db.companies db.users
        (normalizeEmployeeData now body).companyId
        (normalizeEmployeeData now body).userId).errors), db) := by
    unfold createEmployee
    rw [hval]
    simp [hIv]
  refine ⟨by rw [hrun]; try rfl, by rw [hrun]; try rfl, by rw [hrun]; try rfl, ?_⟩
  intro hc
  refine ⟨_, by rw [hrun]; try rfl, ?_⟩
  exact containsSub_joinMsgs _ _ (refIntegrity_company_missing _ _ _ _ hc).2

def c1Db : ErpDb :=
  { companies := [{ id := .num 1, name := strCodes "Acme" }], users := [],
    employees := [], projects := [], tasks := [] }

def c1Body : EmployeeData :=
  { emptyEmployee with
    id := .num 5
    companyId := .num 7
    fullName := some (strCodes "Jane Doe")
    employeeCode := some (strCodes "E1") }

/-- Witness for C1: a valid request addressing company 7, which is not
stored, is refused with 400 and the store is unchanged. -/
theorem employee_create_missing_reference_witness :
    validateEmployeeInput c1Body = [] ∧
      (createEmployee 0 c1Db c1Body).1.status = 400 ∧
      (createEmployee 0 c1Db c1Body).2 = c1Db := by
  have h := employee_create_missing_reference 0 c1Db c1Body (by decide) (Or.inl (by decide))
  exact ⟨by decide, h.1, h.2.2.1⟩

theorem employeeUniqueness_create_dup (emps : List EmployeeData) (employeeId : JsVal)
    (employeeCode : Option (List Nat))
    (hdup : emps.any (fun e => e.id == employeeId) = true ∨
      (∃ c, employeeCode = some c ∧ c.isEmpty = false ∧
        emps.any (fun e => e.employeeCode == some (trimWs c)) = true)) :
    (checkEmployeeUniqueness emps employeeId employeeCode none).isValid = false := by
  unfold checkEmployeeUniqueness
  rcases hdup with h | ⟨c, hc, hce, hany⟩
  · simp [h]
  · subst hc
    simp [hce, hany]

/-- C2: an employee-creation request that passes input validation and the
referential checks but collides on the stored id or employee code is
answered with HTTP 409 and the store is left unmodified. -/
theorem employee_create_duplicate_conflict (now : Int) (db : ErpDb) (body : EmployeeData)
    (hval : validateEmployeeInput body = [])
    (href1 : db.companies.any (fun c => c.id == (normalizeEmployeeData now body).companyId) = true)
    (href2 : (normalizeEmployeeData now body).userId.truthy = true →
      db.users.any (fun u => u.id == (normalizeEmployeeData now body).userId) = true)
    (hdup : db.employees.any (fun e => e.id == (normalizeEmployeeData now body).id) = true ∨
      (∃ c, (normalizeEmployeeData now body).employeeCode = some c ∧ c.isEmpty = false ∧
        db.employees.any (fun e => e.employeeCode == some (trimWs c)) = true)) :
    (createEmployee now db body).1.status = 409 ∧
      (createEmployee now db body).1.success = some false ∧
      (createEmployee now db body).2 = db := by
  have hIv := refIntegrity_ok db.companies db.users
    (normalizeEmployeeData now body).companyId (normalizeEmployeeData now body).userId href1 href2
  have hUv := employeeUniqueness_create_dup db.employees
    (normalizeEmployeeData now body).id (normalizeEmployeeData now body).employeeCode hdup
  have hrun : createEmployee now db body =
      (errResp _ 409 (joinMsgs (checkEmployeeUniqueness db.employees
        (normalizeEmployeeData now body).id
        (normalizeEmployeeData now body).employeeCode none).errors), db) := by
    unfold createEmployee
    rw [hval]
    simp [hIv, hUv]
  exact ⟨by rw [hrun]; try rfl, by rw [hrun]; try rfl, by rw [hrun]; try rfl⟩

def c2Db : ErpDb :=
  { companies := [{ id := .num 1, name := strCodes "Acme" }], users := [],
    employees := [{ emptyEmployee with
      id := .num 5
      companyId := .num 1
      fullName := some (strCodes "First")
      employeeCode := some (strCodes "X1") }],
    projects := [], tasks := [] }

def c2Body : EmployeeData :=
  { emptyEmployee with
    id := .num 5
    companyId := .num 1
    fullName := some (strCodes "Second")
    employeeCode := some (strCodes "X1") }

/-- Witness for C2: re-posting employee id 5 with the stored code X1 is
refused with 409 and the stored employee stays as it was. -/
theorem employee_create_duplicate_conflict_witness :
    (createEmployee 0 c2Db c2Body).1.status = 409 ∧
      (createEmployee 0 c2Db c2Body).2 = c2Db := by
  have h := employee_create_duplicate_conflict 0 c2Db c2Body (by decide) (by decide)
    (fun hu => absurd hu (by decide)) (Or.inl (by decide))
  exact ⟨h.1, h.2.2⟩

def c3Db : ErpDb :=
  { companies := [{ id := .num 1, name := strCodes "Acme" }], users := [],
    employees := [], projects := [], tasks := [] }

def c3Body : ProjectData :=
  { emptyProject with
    companyId := .num 1
    name := some (strCodes "Tower A")
    createdBy := .num 1 }

/-- C3: a project payload that passes input validation, references a stored
company and omits status is defaulted to PLANNING by the normalizer, but the
Project schema enumeration of models Project.js does not admit PLANNING, so
the save raises a validation error and the handler answers 500 with nothing
persisted, instead of the 201-with-saved-project the claim describes. -/
theorem project_create_default_status_rejected :
    validateProjectInput c3Body = [] ∧
      (normalizeProjectData c3Body).status = some (strCodes "PLANNING") ∧
      projectSchemaEnum.contains (strCodes "PLANNING") = false ∧
      (createProject 0 c3Db c3Body).1.status = 500 ∧
      (createProject 0 c3Db c3Body).1.success = some false ∧
      (createProject 0 c3Db c3Body).2 = c3Db ∧
      ¬(createProject 0 c3Db c3Body).1.status = 201 := by
  refine ⟨by decide, by decide, by decide, by decide, by decide, by decide, by decide⟩

/-- C4: when a project or task payload carries two parseable dates with the
end not strictly after the start, the collected validation errors contain
the date-order message and the create handlers answer 400 with a joined
message containing it, whatever else is wrong with the payload. -/
theorem date_order_validation_rejects (now : Int) (db : ErpDb) (p : ProjectData) (t : TaskData)
    (a b c d : Int)
    (hps : p.startDate.truthy = true) (hpe : p.endDate.truthy = true)
    (hpsv : p.startDate.newDate = some a) (hpev : p.endDate.newDate = some b) (hple : b ≤ a)
    (hts : t.startDate.truthy = true) (hte : t.endDate.truthy = true)
    (htsv : t.startDate.newDate = some c) (htev : t.endDate.newDate = some d) (htle : d ≤ c) :
    (strCodes "End date must be after start date") ∈ validateProjectInput p ∧
      (createProject now db p).1.status = 400 ∧
      (∃ m, (createProject now db p).1.message = some m ∧
        containsSub (strCodes "End date must be after start date") m = true) ∧
      (strCodes "End date must be after start date") ∈ validateTaskInput t ∧
      (createTask now db t).1.status = 400 ∧
      (∃ m, (createTask now db t).1.message = some m ∧
        containsSub (strCodes "End date must be after start date") m = true) := by
  have hcondP : (p.startDate.truthy && p.endDate.truthy &&
      dateLeDate p.endDate.newDate p.startDate.newDate) = true := by
    rw [hpsv, hpev]
    simp [dateLeDate, hps, hpe, hple]
  have hcondT : (t.startDate.truthy && t.endDate.truthy &&
      dateLeDate t.endDate.newDate t.startDate.newDate) = true := by
    rw [htsv, htev]
    simp [dateLeDate, hts, hte, htle]
  have hmemP : (strCodes "End date must be after start date") ∈ validateProjectInput p := by
    simp [validateProjectInput, hcondP]
  have hmemT : (strCodes "End date must be after start date") ∈ validateTaskInput t := by
    simp [validateTaskInput, hcondT]
  have hieP : (validateProjectInput p).isEmpty = false := by
    rw [List.isEmpty_eq_false]
    exact List.ne_nil_of_mem hmemP
  have hieT : (validateTaskInput t).isEmpty = false := by
    rw [List.isEmpty_eq_false]
    exact List.ne_nil_of_mem hmemT
  have hrunP : createProject now db p =
      (errResp _ 400 (joinMsgs (validateProjectInput p)), db) := by
    unfold createProject
    simp [hieP]
  have hrunT : createTask now db t =
      (errResp _ 400 (joinMsgs (validateTaskInput t)), db) := by
    unfold createTask
    simp [hieT]
  refine ⟨hmemP, by rw [hrunP]; try rfl, ⟨_, by rw [hrunP]; try rfl, ?_⟩,
    hmemT, by rw [hrunT]; try rfl, ⟨_, by rw [hrunT]; try rfl, ?_⟩⟩
  · exact containsSub_joinMsgs _ _ hmemP
  · exact containsSub_joinMsgs _ _ hmemT

def c4Proj : ProjectData :=
  { emptyProject with
    companyId := .num 1
    name := some (strCodes "Tower A")
    startDate := .str (strCodes "2024-01-10")
    endDate := .str (strCodes "2024-01-01") }

def c4Task : TaskData :=
  { emptyTask with
    companyId := .num 1
    projectId := .num 1
    taskName := some (strCodes "Dig")
    taskType := some (strCodes "WORK")
    startDate := .str (strCodes "2024-01-10")
    endDate := .str (strCodes "2024-01-01") }

/-- Witness for C4 at the concrete spec scenario: start 2024-01-10, end
2024-01-01, for both the project and the task pipeline. -/
theorem date_order_validation_rejects_witness :
    (strCodes "End date must be after start date") ∈ validateProjectInput c4Proj ∧
      (createProject 0 c3Db c4Proj).1.status = 400 ∧
      (strCodes "End date must be after start date") ∈ validateTaskInput c4Task ∧
      (createTask 0 c3Db c4Task).1.status = 400 := by
  have h := date_order_validation_rejects 0 c3Db c4Proj c4Task
    (((2024 * 12 + 0) * 31 + 9 : Nat) : Int) (((2024 * 12 + 0) * 31 + 0 : Nat) : Int)
    (((2024 * 12 + 0) * 31 + 9 : Nat) : Int) (((2024 * 12 + 0) * 31 + 0 : Nat) : Int)
    (by decide) (by decide) (by decide) (by decide) (by decide)
    (by decide) (by decide) (by decide) (by decide) (by decide)
  exact ⟨h.1, h.2.1, h.2.2.2.1, h.2.2.2.2.1⟩

theorem maxIdHead_ne_none {α : Type} (key : α → ℚ) (a : α) (rest : List α) :
    maxIdHead key (a :: rest) ≠ none := by
  simp only [maxIdHead]
  cases maxIdHead key rest with
  | none => simp
  | some y => by_cases hk : key y ≤ key a <;> simp [hk]

theorem maxIdHead_spec {α : Type} (key : α → ℚ) (l : List α) (x : α)
    (hx : maxIdHead key l = some x) :
    x ∈ l ∧ ∀ y ∈ l, key y ≤ key x := by
  induction l generalizing x with
  | nil => simp [maxIdHead] at hx
  | cons a rest ih =>
      simp only [maxIdHead] at hx
      cases hm : maxIdHead key rest with
      | none =>
          rw [hm] at hx
          have hax : a = x := by simpa using hx
          subst hax
          have hrest : rest = [] := by
            cases hr : rest with
            | nil => rfl
            | cons b t =>
                rw [hr] at hm
                exact absurd hm (maxIdHead_ne_none key b t)
          subst hrest
          refine ⟨List.mem_cons_self _ _, ?_⟩
          intro y hy
          have hya : y = a := by simpa using hy
          subst hya
          exact le_refl _
      | some y =>
          rw [hm] at hx
          have hx2 : (if key y ≤ key a then some a else some y) = some x := hx
          obtain ⟨hymem, hybound⟩ := ih y hm
          by_cases hk : key y ≤ key a
          · rw [if_pos hk] at hx2
            have hax : a = x := by simpa using hx2
            subst hax
            refine ⟨List.mem_cons_self _ _, ?_⟩
            intro z hz
            rcases List.mem_cons.mp hz with h1 | h2
            · subst h1
              exact le_refl _
            · exact le_trans (hybound z h2) hk
          · rw [if_neg hk] at hx2
            have hyx : y = x := by simpa using hx2
            subst hyx
            refine ⟨List.mem_cons_of_mem _ hymem, ?_⟩
            intro z hz
            rcases List.mem_cons.mp hz with h1 | h2
            · subst h1
              exact le_of_not_le hk
            · exact hybound z h2

/-- C5: the auto-increment id computed before a project or task insert is
one more than the maximal id stored in that collection (1 when it is
empty), and a task created without an explicit id is persisted with exactly
that id. -/
theorem next_id_is_max_plus_one :
    (∀ ps : List ProjectData,
      (ps = [] → nextProjectId ps = 1) ∧
      (ps ≠ [] → ∃ p ∈ ps, nextProjectId ps = keyOf p.id + 1 ∧
        ∀ r ∈ ps, keyOf r.id ≤ keyOf p.id)) ∧
    (∀ ts : List TaskData,
      (ts = [] → nextTaskId ts = 1) ∧
      (ts ≠ [] → ∃ t ∈ ts, nextTaskId ts = keyOf t.id + 1 ∧
        ∀ r ∈ ts, keyOf r.id ≤ keyOf t.id)) ∧
    (∀ (now : Int) (db : ErpDb) (body : TaskData),
      body.id.truthy = false →
      (createTask now db body).1.status = 201 →
      ∃ doc, (createTask now db body).2.tasks = db.tasks ++ [doc] ∧
        doc.id = .num (nextTaskId db.tasks)) := by
  refine ⟨?_, ?_, ?_⟩
  · intro ps
    constructor
    · intro h
      subst h
      rfl
    · intro hne
      cases hps : ps with
      | nil => exact absurd hps hne
      | cons a rest =>
          cases hm : maxIdHead (fun p => keyOf p.id) (a :: rest) with
          | none => exact absurd hm (maxIdHead_ne_none _ a rest)
          | some x =>
              obtain ⟨hmem, hbound⟩ := maxIdHead_spec _ _ _ hm
              refine ⟨x, hmem, ?_, hbound⟩
              unfold nextProjectId
              rw [hm]
  · intro ts
    constructor
    · intro h
      subst h
      rfl
    · intro hne
      cases hts : ts with
      | nil => exact absurd hts hne
      | cons a rest =>
          cases hm : maxIdHead (fun t => keyOf t.id) (a :: rest) with
          | none => exact absurd hm (maxIdHead_ne_none _ a rest)
          | some x =>
              obtain ⟨hmem, hbound⟩ := maxIdHead_spec _ _ _ hm
              refine ⟨x, hmem, ?_, hbound⟩
              unfold nextTaskId
              rw [hm]
  · intro now db body hid h201
    unfold createTask at h201 ⊢
    by_cases hv : (validateTaskInput body).isEmpty = true
    · simp only [hv, Bool.not_true, Bool.false_eq_true, if_false]
      simp only [hv, Bool.not_true, Bool.false_eq_true, if_false] at h201
      have hid0 : (normalizeTaskData now body).id = body.id := rfl
      have hidn : (normalizeTaskData now body).id.truthy = false := by rw [hid0]; exact hid
      simp only [hidn, Bool.false_eq_true, if_false] at h201 ⊢
      by_cases href : (validateTaskRefs db.companies db.projects
          ({ normalizeTaskData now body with id := .num (nextTaskId db.tasks) }).companyId
          ({ normalizeTaskData now body with id := .num (nextTaskId db.tasks) }).projectId).isValid = true
      · simp only [href, Bool.not_true, Bool.false_eq_true, if_false] at h201 ⊢
        by_cases hschema : taskSchemaOk ({ { normalizeTaskData now body with
            id := .num (nextTaskId db.tasks) } with updatedAt := .date (some now) }) = true
        · simp only [hschema, if_true] at h201 ⊢
          exact ⟨_, rfl, rfl⟩
        · simp only [hschema, Bool.false_eq_true, if_false] at h201
          cases h201
      · simp only [Bool.not_eq_true] at href
        simp only [href, Bool.not_false, if_true] at h201
        cases h201
    · simp only [Bool.not_eq_true] at hv
      simp only [hv, Bool.not_false, if_true] at h201
      cases h201

def c5Db : ErpDb :=
  { companies := [{ id := .num 1, name := strCodes "Acme" }], users := [],
    employees := [],
    projects := [{ emptyProject with id := .num 3, name := some (strCodes "P") }],
    tasks := [] }

def c5Task : TaskData :=
  { emptyTask with
    companyId := .num 1
    projectId := .num 3
    taskName := some (strCodes "Dig")
    taskType := some (strCodes "WORK") }

/-- Witness for C5: the next project id over an empty store is 1, over a
store holding project 3 it is the maximal id plus one, and a task created
without an id is appended with exactly the computed next id. -/
theorem next_id_is_max_plus_one_witness :
    nextProjectId [] = 1 ∧
      (∃ p ∈ c5Db.projects, nextProjectId c5Db.projects = keyOf p.id + 1 ∧
        ∀ r ∈ c5Db.projects, keyOf r.id ≤ keyOf p.id) ∧
      (∃ doc, (createTask 0 c5Db c5Task).2.tasks = c5Db.tasks ++ [doc] ∧
        doc.id = .num (nextTaskId c5Db.tasks)) := by
  refine ⟨(next_id_is_max_plus_one.1 []).1 rfl, ?_, ?_⟩
  · exact (next_id_is_max_plus_one.1 c5Db.projects).2 (by decide)
  · exact next_id_is_max_plus_one.2.2 0 c5Db c5Task (by decide) (by decide)

def c6Db : ErpDb :=
  { companies := [{ id := .num 1, name := strCodes "Acme" }], users := [],
    employees :=
      [{ emptyEmployee with
          id := .num 1
          companyId := .num 1
          fullName := some (strCodes "One")
          employeeCode := some (strCodes "A") },
       { emptyEmployee with
          id := .num 2
          companyId := .num 1
          fullName := some (strCodes "Two")
          employeeCode := some (strCodes "B") }],
    projects := [], tasks := [] }

def c6Body : EmployeeData :=
  { emptyEmployee with employeeCode := some (strCodes "A") }

/-- C6: on the employee update path checkEmployeeUniqueness overwrites the
id query with a pure not-equal filter instead of merging it, so the id scan
matches any other stored employee; an update of employee 1 that keeps its
own code A is rejected with 409 (with an already-exists message about its
own id) as soon as any second employee is stored, and nothing is written.
The claim that keeping the existing code is never a 409 conflict is
therefore false on the employee side, while the project-side scan
(checkProjectCodeUniqueness) does exclude only the record itself. -/
theorem employee_update_own_code_conflict :
    c6Db.employees.head?.map (fun e => e.employeeCode) = some (some (strCodes "A")) ∧
      (updateEmployee 0 c6Db (strCodes "1") c6Body).1.status = 409 ∧
      (∃ m, (updateEmployee 0 c6Db (strCodes "1") c6Body).1.message = some m ∧
        containsSub (strCodes "Employee with ID 1 already exists") m = true) ∧
      (updateEmployee 0 c6Db (strCodes "1") c6Body).2 = c6Db ∧
      (checkProjectCodeUniqueness
        [{ emptyProject with id := .num 9, code := some (strCodes "PC") }]
        (strCodes "PC") (some (.num 9))) = true := by
  refine ⟨by decide, by decide,
    ⟨strCodes "Employee with ID 1 already exists", by decide, by decide⟩, by decide, by decide⟩

/-- C7: the employee, project and task normalizers are idempotent: applying
any of them to its own output returns the payload unchanged. -/
theorem normalization_idempotent :
    (∀ (now : Int) (d : EmployeeData),
      normalizeEmployeeData now (normalizeEmployeeData now d) = normalizeEmployeeData now d) ∧
    (∀ d : ProjectData,
      normalizeProjectData (normalizeProjectData d) = normalizeProjectData d) ∧
    (∀ (now : Int) (d : TaskData),
      normalizeTaskData now (normalizeTaskData now d) = normalizeTaskData now d) :=
  ⟨normalizeEmployeeData_idem, normalizeProjectData_idem, normalizeTaskData_idem⟩

def c8Material : MaterialData := { fields := [(strCodes "name", .str (strCodes "Cement"))] }

/-- Counterexample for C8: the unmatched-route handler, the last-resort
error middleware and the materials create handler all answer with JSON
bodies that carry no success key at all, refuting the claim that every
handler in the API returns an envelope with a boolean success field. -/
theorem envelope_success_missing_counterexample :
    notFoundResponse.status = 404 ∧ notFoundResponse.success = none ∧
      errorMiddlewareResponse.status = 500 ∧ errorMiddlewareResponse.success = none ∧
      (createMaterial [] c8Material).1.status = 201 ∧
      (createMaterial [] c8Material).1.success = none :=
  ⟨rfl, rfl, rfl, rfl, rfl, rfl⟩

/-- C8 (amended): the employee, project and task handlers emit a boolean
success field on every branch, but the materials controller and the
unmatched-route and last-resort middlewares of index.js return JSON bodies
without one. -/
theorem envelope_success_partition :
    (∀ (now : Int) (db : ErpDb) (body : EmployeeData),
      ((createEmployee now db body).1.success).isSome = true) ∧
    (∀ (now : Int) (db : ErpDb) (idParam : List Nat) (body : EmployeeData),
      ((updateEmployee now db idParam body).1.success).isSome = true) ∧
    (∀ (now : Int) (db : ErpDb) (body : ProjectData),
      ((createProject now db body).1.success).isSome = true) ∧
    (∀ (now : Int) (db : ErpDb) (body : TaskData),
      ((createTask now db body).1.success).isSome = true) ∧
    (∀ (db : ErpDb) (q : TaskQuery),
      ((getAllTasks db q).success).isSome = true) ∧
    (∀ (now : Int) (db : ErpDb) (idParam : List Nat) (body : TaskData),
      ((updateTask now db idParam body).1.success).isSome = true) ∧
    notFoundResponse.success = none ∧
    errorMiddlewareResponse.success = none ∧
    (∀ (store : List MaterialData) (body : MaterialData),
      ((createMaterial store body).1.success) = none) := by
  refine ⟨?_, ?_, ?_, ?_, ?_, ?_, rfl, rfl, ?_⟩
  · intro now db body
    unfold createEmployee
    dsimp only
    repeat' split
    all_goals rfl
  · intro now db idParam body
    unfold updateEmployee
    dsimp only
    repeat' split
    all_goals rfl
  · intro now db body
    unfold createProject
    dsimp only
    repeat' split
    all_goals rfl
  · intro now db body
    unfold createTask
    dsimp only
    repeat' split
    all_goals rfl
  · intro db q
    rfl
  · intro now db idParam body
    unfold updateTask
    dsimp only
    repeat' split
    all_goals rfl
  · intro store body
    rfl

/-- C9: for GET api tasks with only a status parameter, given in any letter
case, the handler upper-cases the value and (within the default page of
1000) answers exactly the stored tasks whose status equals the upper-cased
form, each enriched with its company and project names. -/
theorem tasks_status_filter_case_insensitive (db : ErpDb) (s : List Nat)
    (hlen : (db.tasks.filter (fun t => t.status == some (upperStr s))).length ≤ 1000) :
    (getAllTasks db { emptyTaskQuery with status := some s }).status = 200 ∧
      ∃ out, (getAllTasks db { emptyTaskQuery with status := some s }).data = some out ∧
        ∀ td : TaskData, (∃ pr ∈ out, pr.1 = td) ↔
          (td ∈ db.tasks ∧ td.status = some (upperStr s)) := by
  have hpred : ∀ t ∈ db.tasks.mergeSort taskListOrder,
      matchesTaskQuery { emptyTaskQuery with status := some s } t =
        (t.status == some (upperStr s)) := by
    intro t _
    simp [matchesTaskQuery, emptyTaskQuery]
  have hperm : (db.tasks.mergeSort taskListOrder).Perm db.tasks :=
    List.mergeSort_perm db.tasks taskListOrder
  have hfilter : (db.tasks.mergeSort taskListOrder).filter
      (matchesTaskQuery { emptyTaskQuery with status := some s }) =
      (db.tasks.mergeSort taskListOrder).filter (fun t => t.status == some (upperStr s)) :=
    List.filter_congr hpred
  have hpermf : ((db.tasks.mergeSort taskListOrder).filter
      (fun t => t.status == some (upperStr s))).Perm
      (db.tasks.filter (fun t => t.status == some (upperStr s))) :=
    hperm.filter _
  have hlen2 : ((db.tasks.mergeSort taskListOrder).filter
      (fun t => t.status == some (upperStr s))).length ≤ 1000 := by
    rw [hpermf.length_eq]
    exact hlen
  have hrun : getAllTasks db { emptyTaskQuery with status := some s } =
      { status := 200, success := some true, message := none,
        data := some (((db.tasks.mergeSort taskListOrder).filter
          (fun t => t.status == some (upperStr s))).map
            (fun t => (t, companyNameOf db t.companyId, projectNameOf db t.projectId))) } := by
    unfold getAllTasks
    dsimp only
    have h1 : qInt ({ emptyTaskQuery with status := some s } : TaskQuery).page 1 = 1 := rfl
    have h2 : qInt ({ emptyTaskQuery with status := some s } : TaskQuery).limit 1000 = 1000 := rfl
    rw [h1, h2, hfilter]
    have h3 : (((1 : Int) - 1) * 1000).toNat = 0 := rfl
    have h4 : ((1000 : Int)).toNat = 1000 := rfl
    rw [h3, h4, List.drop_zero, List.take_of_length_le hlen2]
  refine ⟨by rw [hrun], ?_⟩
  refine ⟨((db.tasks.mergeSort taskListOrder).filter
      (fun t => t.status == some (upperStr s))).map
        (fun t => (t, companyNameOf db t.companyId, projectNameOf db t.projectId)),
    by rw [hrun], ?_⟩
  intro td
  constructor
  · rintro ⟨pr, hpr, hfst⟩
    obtain ⟨t0, ht0, hteq⟩ := List.mem_map.mp hpr
    have ht0d : t0 = td := by
      rw [← hfst, ← hteq]
    subst ht0d
    have h2 := List.mem_filter.mp ht0
    exact ⟨hperm.mem_iff.mp h2.1, by simpa using h2.2⟩
  · rintro ⟨hmem, hst⟩
    refine ⟨(td, companyNameOf db td.companyId, projectNameOf db td.projectId), ?_, rfl⟩
    refine List.mem_map.mpr ⟨td, ?_, rfl⟩
    refine List.mem_filter.mpr ⟨hperm.mem_iff.mpr hmem, by simp [hst]⟩

def c9Task1 : TaskData :=
  { emptyTask with
    id := .num 1
    companyId := .num 1
    projectId := .num 3
    taskName := some (strCodes "Dig")
    taskType := some (strCodes "WORK")
    status := some (strCodes "PLANNED") }

def c9Task2 : TaskData :=
  { emptyTask with
    id := .num 2
    companyId := .num 1
    projectId := .num 3
    taskName := some (strCodes "Pour")
    taskType := some (strCodes "WORK")
    status := some (strCodes "COMPLETED") }

def c9Db : ErpDb :=
  { companies := [{ id := .num 1, name := strCodes "Acme" }], users := [],
    employees := [], projects := [], tasks := [c9Task1, c9Task2] }

/-- Witness for C9: querying status planned in lower case selects exactly
the stored PLANNED task. -/
theorem tasks_status_filter_case_insensitive_witness :
    upperStr (strCodes "planned") = strCodes "PLANNED" ∧
      (getAllTasks c9Db { emptyTaskQuery with status := some (strCodes "planned") }).status = 200 ∧
      ∃ out, (getAllTasks c9Db
          { emptyTaskQuery with status := some (strCodes "planned") }).data = some out ∧
        ∀ td : TaskData, (∃ pr ∈ out, pr.1 = td) ↔
          (td ∈ c9Db.tasks ∧ td.status = some (upperStr (strCodes "planned"))) := by
  have h := tasks_status_filter_case_insensitive c9Db (strCodes "planned") (by decide)
  exact ⟨by decide, h.1, h.2⟩

theorem find?_decomp {α : Type} (p : α → Bool) (pre : List α) (t : α) (post : List α)
    (hpre : ∀ u ∈ pre, p u = false) (ht : p t = true) :
    (pre ++ t :: post).find? p = some t := by
  induction pre with
  | nil => simpa using List.find?_cons_of_pos post ht
  | cons a rest ih =>
      have ha : p a = false := hpre a (List.mem_cons_self _ _)
      rw [List.cons_append, List.find?_cons_of_neg _ (by simp [ha])]
      exact ih (fun u hu => hpre u (List.mem_cons_of_mem _ hu))

theorem updateFirst_decomp {α : Type} (p : α → Bool) (f : α → α) (pre : List α) (t : α)
    (post : List α) (hpre : ∀ u ∈ pre, p u = false) (ht : p t = true) :
    updateFirst (pre ++ t :: post) p f = pre ++ f t :: post := by
  induction pre with
  | nil => simp [updateFirst, ht]
  | cons a rest ih =>
      have ha : p a = false := hpre a (List.mem_cons_self _ _)
      rw [List.cons_append, updateFirst]
      simp only [ha, Bool.false_eq_true, if_false]
      rw [ih (fun u hu => hpre u (List.mem_cons_of_mem _ hu)), List.cons_append]

/-- C10: on a task update addressed by a numeric id, every field the
normalizer defaults is overwritten in the stored task even when it is
absent from the request body: an omitted status becomes PLANNED, an omitted
additionalData the empty map, and an omitted createdAt the time of the
update, while fields outside the normalizer and its defaults (task name,
type, description, notes, dates, ids) are preserved when omitted. -/
theorem task_update_overwrites_defaults (now : Int) (db : ErpDb) (idParam : List Nat)
    (body : TaskData) (pre post : List TaskData) (t : TaskData)
    (hdig1 : idParam.isEmpty = false) (hdig2 : idParam.all isDigitCh = true)
    (hdb : db.tasks = pre ++ t :: post)
    (hpre : ∀ u ∈ pre, (u.id == JsVal.num (valOfDigits idParam : ℚ)) = false)
    (ht : (t.id == JsVal.num (valOfDigits idParam : ℚ)) = true)
    (hstatus : body.status = none)
    (haddl : body.additionalData = .undef)
    (hcreated : body.createdAt = .undef) :
    (updateTask now db idParam body).1.status = 200 ∧
      ∃ t2, (updateTask now db idParam body).2.tasks = pre ++ t2 :: post ∧
        t2.status = some (strCodes "PLANNED") ∧
        t2.additionalData = .objMap [] ∧
        t2.createdAt = .date (some now) ∧
        t2.updatedAt = .date (some now) ∧
        (body.taskName = none → t2.taskName = t.taskName) ∧
        (body.taskType = none → t2.taskType = t.taskType) ∧
        (body.description = none → t2.description = t.description) ∧
        (body.notes = none → t2.notes = t.notes) ∧
        (body.startDate = .undef → t2.startDate = t.startDate) ∧
        (body.endDate = .undef → t2.endDate = t.endDate) ∧
        (body.id = .undef → t2.id = t.id) ∧
        (body.companyId = .undef → t2.companyId = t.companyId) ∧
        (body.projectId = .undef → t2.projectId = t.projectId) := by
  have hfind : db.tasks.find? (fun u => u.id == JsVal.num (valOfDigits idParam : ℚ)) = some t := by
    rw [hdb]
    exact find?_decomp _ pre t post hpre ht
  have hupd : updateFirst db.tasks (fun u => u.id == JsVal.num (valOfDigits idParam : ℚ))
      (applySetTask { normalizeTaskData now body with updatedAt := .date (some now) }) =
      pre ++ applySetTask { normalizeTaskData now body with updatedAt := .date (some now) } t :: post := by
    rw [hdb]
    exact updateFirst_decomp _ _ pre t post hpre ht
  have hrun : updateTask now db idParam body =
      ({ status := 200, success := some true,
         message := some (strCodes "Task updated successfully"),
         data := some (applySetTask { normalizeTaskData now body with
             updatedAt := .date (some now) } t,
           companyNameOf db (applySetTask { normalizeTaskData now body with
             updatedAt := .date (some now) } t).companyId) },
       { db with tasks := pre ++ applySetTask { normalizeTaskData now body with
           updatedAt := .date (some now) } t :: post }) := by
    unfold updateTask
    dsimp only
    rw [hdig1, hdig2]
    simp only [Bool.not_false, Bool.and_self, if_true]
    rw [hfind, hupd]
  refine ⟨by rw [hrun], ?_⟩
  refine ⟨applySetTask { normalizeTaskData now body with updatedAt := .date (some now) } t,
    by rw [hrun], ?_, ?_, ?_, ?_, ?_, ?_, ?_, ?_, ?_, ?_, ?_, ?_, ?_⟩
  · show setOpt (orDefaultStr body.status (strCodes "PLANNED")) t.status = some (strCodes "PLANNED")
    rw [hstatus]
    rfl
  · show setVal (orDefaultVal body.additionalData (.objMap [])) t.additionalData = .objMap []
    rw [haddl]
    rfl
  · show setVal (orDefaultVal body.createdAt (.date (some now))) t.createdAt = .date (some now)
    rw [hcreated]
    rfl
  · rfl
  · intro h
    show setOpt (normStrOpt trimWs body.taskName) t.taskName = t.taskName
    rw [h]
    rfl
  · intro h
    show setOpt body.taskType t.taskType = t.taskType
    rw [h]
    rfl
  · intro h
    show setOpt (normStrOpt trimWs body.description) t.description = t.description
    rw [h]
    rfl
  · intro h
    show setOpt (normStrOpt trimWs body.notes) t.notes = t.notes
    rw [h]
    rfl
  · intro h
    show setVal (taskDateStep body.startDate) t.startDate = t.startDate
    rw [h]
    rfl
  · intro h
    show setVal (taskDateStep body.endDate) t.endDate = t.endDate
    rw [h]
    rfl
  · intro h
    show setVal body.id t.id = t.id
    rw [h]
    rfl
  · intro h
    show setVal (normNumField body.companyId) t.companyId = t.companyId
    rw [h]
    rfl
  · intro h
    show setVal (normNumField body.projectId) t.projectId = t.projectId
    rw [h]
    rfl

def c10Stored : TaskData :=
  { emptyTask with
    id := .num 7
    companyId := .num 1
    projectId := .num 3
    taskName := some (strCodes "Dig")
    taskType := some (strCodes "WORK")
    status := some (strCodes "IN_PROGRESS")
    additionalData := .objMap [(strCodes "crew", strCodes "alpha")]
    createdAt := .date (some 5) }

def c10Db : ErpDb :=
  { companies := [{ id := .num 1, name := strCodes "Acme" }], users := [],
    employees := [], projects := [], tasks := [c10Stored] }

def c10Body : TaskData :=
  { emptyTask with notes := some (strCodes "touched") }

/-- Witness for C10: updating task 7 with a body carrying only notes resets
its status to PLANNED, its additionalData to the empty map and its
createdAt to the update time, while name and type survive. -/
theorem task_update_overwrites_defaults_witness :
    (updateTask 9 c10Db (strCodes "7") c10Body).1.status = 200 ∧
      ∃ t2, (updateTask 9 c10Db (strCodes "7") c10Body).2.tasks = [] ++ t2 :: [] ∧
        t2.status = some (strCodes "PLANNED") ∧
        t2.additionalData = .objMap [] ∧
        t2.createdAt = .date (some 9) := by
  have h := task_update_overwrites_defaults 9 c10Db (strCodes "7") c10Body [] [] c10Stored
    (by decide) (by decide) rfl (by intro u hu; cases hu) (by decide)
    rfl rfl rfl
  obtain ⟨h1, t2, h2, h3, h4, h5, _⟩ := h
  exact ⟨h1, t2, h2, h3, h4, h5⟩
